import Mathlib

set_option maxRecDepth 8000

def civilToDays (y m d : Nat) : Nat :=
  let yAdj := y + 400 - (if m ≤ 2 then 1 else 0)
  let era := yAdj / 400
  let yoe := yAdj % 400
  let mp := if m ≥ 3 then m - 3 else m + 9
  let doy := (153 * mp + 2) / 5 + d - 1
  let doe := yoe * 365 + yoe / 4 - yoe / 100 + doy
  era * 146097 + doe - 146037

def civilFromDays (n : Nat) : Nat × Nat × Nat :=
  let z := n + 146037
  let era := z / 146097
  let doe := z % 146097
  let c := min (doe / 36524) 3
  let dcent := doe - 36524 * c
  let q := min (dcent / 1461) 24
  let dquad := dcent - 1461 * q
  let yq := min (dquad / 365) 3
  let doy := dquad - 365 * yq
  let yoe := 100 * c + 4 * q + yq
  let mp := (5 * doy + 2) / 153
  let d := doy - (153 * mp + 2) / 5 + 1
  let m := if mp < 10 then mp + 3 else mp - 9
  let y := yoe + era * 400 + (if m ≤ 2 then 1 else 0)
  (y - 400, m, d)

def digitChar (k : Nat) : Char :=
  match k with
  | 0 => '0' | 1 => '1' | 2 => '2' | 3 => '3' | 4 => '4'
  | 5 => '5' | 6 => '6' | 7 => '7' | 8 => '8' | 9 => '9'
  | _ => '*'

def digitVal? (c : Char) : Option Nat :=
  if 48 ≤ c.toNat ∧ c.toNat ≤ 57 then some (c.toNat - 48) else none

def pad2 (n : Nat) : List Char := [digitChar (n / 10), digitChar (n % 10)]

def pad4 (n : Nat) : List Char := pad2 (n / 100) ++ pad2 (n % 100)

def pad6 (n : Nat) : List Char := pad2 (n / 10000) ++ pad4 (n % 10000)

/-- The date string produced by JS `toISOString().replace(/T.*$/, '')` for a UTC
day number: `YYYY-MM-DD` for years up to 9999, expanded `+0YYYYY-MM-DD` beyond. -/
def printDate (n : Nat) : String :=
  let y := (civilFromDays n).1
  let m := (civilFromDays n).2.1
  let d := (civilFromDays n).2.2
  if y ≤ 9999 then ⟨pad4 y ++ '-' :: (pad2 m ++ '-' :: pad2 d)⟩
  else ⟨'+' :: (pad6 y ++ '-' :: (pad2 m ++ '-' :: pad2 d))⟩

def readDigits (l : List Char) : Option (Nat × Nat × Nat) :=
  match l with
  | [c1, c2, c3, c4, dash1, c5, c6, dash2, c7, c8] =>
    if dash1 = '-' ∧ dash2 = '-' then
      match digitVal? c1, digitVal? c2, digitVal? c3, digitVal? c4,
            digitVal? c5, digitVal? c6, digitVal? c7, digitVal? c8 with
      | some a, some b, some c, some e, some f, some g, some h, some i =>
          some (a * 1000 + b * 100 + c * 10 + e, f * 10 + g, h * 10 + i)
      | _, _, _, _, _, _, _, _ => none
    else none
  | _ => none

/-- Model of JS `new Date(s)` for canonical date-only strings: succeeds exactly on
the canonical `YYYY-MM-DD` rendering of a day number (JS rejects out-of-range
fields like `2021-02-30` in ISO date strings). -/
def parseDate (s : String) : Option Nat :=
  match readDigits s.data with
  | none => none
  | some (y, m, d) =>
    let n := civilToDays y m d
    if printDate n = s then some n else none


/-- Lexicographic order on (year, month, day) triples. -/
def ymdLex (a b : Nat × Nat × Nat) : Prop :=
  a.1 < b.1 ∨ (a.1 = b.1 ∧ (a.2.1 < b.2.1 ∨ (a.2.1 = b.2.1 ∧ a.2.2 < b.2.2)))

/-- JS weekday convention: 0 = Sunday, …, 6 = Saturday. Day 0 of this model
(0000-01-01, proleptic Gregorian) is a Saturday. -/
def dayOfWeek (n : Nat) : Nat := (n + 6) % 7

/-- Model of `getLastSunday` (src/index.js): `const day = date.getDay() || 7;
if (day !== 0) date.setHours(-24 * day);`. Since `day` is never 0 after `|| 7`,
the code always steps back `day` days: a full week when today is Sunday. -/
def getLastSunday (now : Nat) : Nat :=
  let day := if dayOfWeek now = 0 then 7 else dayOfWeek now
  now - day

/-- Model of `getLastMonday` (Layout variant): steps back `day - 1` days unless
today is Monday, in which case the date is unchanged. -/
def getLastMonday (now : Nat) : Nat :=
  let day := if dayOfWeek now = 0 then 7 else dayOfWeek now
  if day ≠ 1 then now - (day - 1) else now

/-- The duty-cycle history: a JS object mapping date strings to triager names,
modelled as an association list in insertion order with unique keys. -/
abbrev History := List (String × String)

/-- JS object assignment `obj[k] = v`: overwrites in place when the key exists,
otherwise appends in insertion order. -/
def insertKV (h : List (String × String)) (k v : String) : List (String × String) :=
  if (h.map Prod.fst).contains k then
    h.map (fun kv => if kv.1 = k then (k, v) else kv)
  else h ++ [(k, v)]

/-- Model of `getLastDutyCycle`: sorts `Object.keys` lexicographically (JS
`sort()` is modelled by a stable comparison sort), takes the last entry, and
throws when the value there is falsy (absent or the empty string). -/
def getLastDutyCycle (dutyCycleHistory : History) : Except String (Option (String × String)) :=
  let dutyDates := (dutyCycleHistory.map Prod.fst).insertionSort (· ≤ ·)
  match dutyDates.getLast? with
  | none => .ok none
  | some lastDutyDate =>
    match dutyCycleHistory.lookup lastDutyDate with
    | none => .error "FATAL ERROR: Invalid data in history file!"
    | some lastTriagerName =>
      if lastTriagerName = "" then .error "FATAL ERROR: Invalid data in history file!"
      else .ok (some (lastDutyDate, lastTriagerName))

/-- The record returned by `generateDutyCycle`. `triagerName = none` models the
JS value `undefined` (produced when the roster is empty: `names[NaN]`). -/
structure DutyCycle where
  date : String
  triagerName : Option String
deriving DecidableEq, Repr

/-- Common body of the two `generateDutyCycle` variants; `firstStart` is
`getLastSunday` (a11y) or `getLastMonday` (Layout). Mirrors the source:
the last-index defaults to `-1`, a falsy last date or name restarts from the
computed default start, `indexOf` failure leaves `-1`, the next index is
`(idx + 1) % names.length`, and `toISOString` throws on an unparseable date. -/
def generateDutyCycleCore (firstStart : Nat → Nat) (dutyCycleHistory : History)
    (triagerNames : List String) (now : Nat) : Except String DutyCycle :=
  match getLastDutyCycle dutyCycleHistory with
  | .error e => .error e
  | .ok last =>
    let p :=
      match last with
      | none => (printDate (firstStart now), (-1 : Int))
      | some (lastDutyDate, lastTriagerName) =>
        if lastDutyDate = "" ∨ lastTriagerName = "" then
          (printDate (firstStart now), (-1 : Int))
        else
          (lastDutyDate,
            match triagerNames.indexOf? lastTriagerName with
            | some i => (i : Int)
            | none => (-1 : Int))
    let nextTriagerIdx := (p.2 + 1).toNat % triagerNames.length
    match parseDate p.1 with
    | none => .error "RangeError: Invalid time value"
    | some lastDays => .ok ⟨printDate (lastDays + 7), triagerNames[nextTriagerIdx]?⟩

/-- `generateDutyCycle` of src/index.js (a11y variant, Sunday-based). -/
def generateDutyCycle (dutyCycleHistory : History) (triagerNames : List String)
    (now : Nat) : Except String DutyCycle :=
  generateDutyCycleCore getLastSunday dutyCycleHistory triagerNames now

/-- `generateDutyCycle` of the Layout variant (Monday-based). -/
def generateDutyCycleLayout (dutyCycleHistory : History) (triagerNames : List String)
    (now : Nat) : Except String DutyCycle :=
  generateDutyCycleCore getLastMonday dutyCycleHistory triagerNames now

def BZ_QUERY : String := "https://bugzilla.mozilla.org/buglist.cgi?o3=notsubstring&f15=component&f4=product&v3=%5Baccess-s&o15=equals&f3=status_whiteboard&v4=Core%2CFirefox%2CDevTools%2CToolkit&resolution=---&o4=anyexact&v15=Accessibility%20Tools&v19=Disability%20Access&f12=CP&o10=equals&f11=component&v10=Core&o19=equals&f10=product&v11=Disability%20Access%20APIs&chfieldfrom=-60d&o11=equals&f19=component&f2=keywords&o2=casesubstring&j_top=OR&v2=access&v14=DevTools&f7=bug_severity&o14=equals&v7=--&bug_type=defect&o7=equals&f14=product&f20=CP&f21=CP&f17=OP&f9=OP&f22=CP&f18=product&classification=Client%20Software&classification=Developer%20Infrastructure&classification=Components&classification=Server%20Software&classification=Other&f6=OP&f8=OP&columnlist=bug_type%2Cshort_desc%2Ccomponent%2Cassigned_to%2Cbug_status%2Cresolution%2Cchangeddate%2Cstatus_whiteboard%2Ckeywords%2Cpriority%2Cbug_severity&o18=equals&chfield=%5BBug%20creation%5D&v18=Firefox&query_format=advanced&j8=OR&f5=CP&f13=OP&f16=CP&f1=OP"

def FENIX_QUERY : String := "https://github.com/mozilla-mobile/fenix/issues?q=is%3Aopen+is%3Aissue+label%3Aneeds%3Atriage+label%3Ab%3Aa11y"

/-- Model of `formatDateForGitHub`: unpadded year, two-digit month and day. -/
def formatDateForGitHub (n : Nat) : String :=
  toString (civilFromDays n).1 ++ "-" ++ String.mk (pad2 (civilFromDays n).2.1) ++ "-" ++
    String.mk (pad2 (civilFromDays n).2.2)

/-- Model of `getFenixQuery`: filter date is 60 days before the cycle date; an
unparseable date gives JS `NaN` fields, which format as the text NaN-NaN-NaN. -/
def getFenixQuery (dutyCycleDate : String) : String :=
  FENIX_QUERY ++ "+created%3A%3E" ++
    (match parseDate dutyCycleDate with
     | some n => formatDateForGitHub (n - 60)
     | none => "NaN-NaN-NaN")

/-- One calendar event as pushed by `generateIcsFile`. `start`/`stop` are day
numbers (`none` models an Invalid Date); `stop` is the JS `end` field. -/
structure IcsEvent where
  start : Option Nat
  stop : Option Nat
  summary : String
  allDay : Bool
  transp : String
  description : String
deriving DecidableEq, Repr

/-- The calendar artifact built by `generateIcsFile`: fixed calendar metadata
plus one event per history entry, in object iteration order. -/
structure IcsFile where
  calname : String
  timezone : String
  tzid : String
  refreshInterval : String
  calDesc : String
  events : List IcsEvent
deriving DecidableEq, Repr

/-- Model of `generateIcsFile` (a11y variant). -/
def generateIcsFile (dutyCycleHistory : History) : IcsFile :=
  { calname := "a11y Team Triage"
    timezone := "America/Los_Angeles"
    tzid := "America/Los_Angeles"
    refreshInterval := "VALUE=DURATION:P1H"
    calDesc := "a11y Team Triage"
    events := dutyCycleHistory.map (fun kv =>
      { start := parseDate kv.1
        stop := (parseDate kv.1).map (· + 7)
        summary := "Triage Duty: " ++ kv.2
        allDay := true
        transp := "TRANSPARENT"
        description := "On duty this week: <strong>" ++ kv.2 ++ "</strong>" ++
          "<ul>" ++
          "<li><a href=\"" ++ BZ_QUERY ++ "\" title=\"Bugzilla query\">Untriaged Bugs in Bugzilla</a></li>" ++
          "<li><a href=\"" ++ getFenixQuery kv.1 ++ "\" title=\"Fenix query\">Untriaged Fenix Bugs</a></li>" ++
          "</ul>" }) }

def hexChar (k : Nat) : Char :=
  match k with
  | 0 => '0' | 1 => '1' | 2 => '2' | 3 => '3' | 4 => '4'
  | 5 => '5' | 6 => '6' | 7 => '7' | 8 => '8' | 9 => '9'
  | 10 => 'A' | 11 => 'B' | 12 => 'C' | 13 => 'D' | 14 => 'E' | 15 => 'F'
  | _ => '*'

/-- JS `encodeURIComponent`: unreserved characters pass through, everything else
is percent-encoded per UTF-8 byte with uppercase hex. -/
def encodeURIComponent (s : String) : String :=
  ⟨s.data.flatMap (fun c =>
    if c.isAlphanum ∨ c ∈ ['-', '_', '.', '!', '~', '*', '\'', '(', ')'] then [c]
    else (String.utf8EncodeChar c).flatMap
      (fun b => ['%', hexChar (b.toNat / 16), hexChar (b.toNat % 16)]))⟩

/-- Model of the Layout variant's `generateBugzillaUrl`; components are
(product, component) pairs from the config. -/
def generateBugzillaUrl (components : List (String × String)) : String :=
  let base := "https://bugzilla.mozilla.org/buglist.cgi?" ++
    "priority=--" ++
    "&f1=short_desc" ++
    "&bug_type=defect" ++
    "&o1=notsubstring" ++
    "&resolution=---" ++
    "&query_format=advanced" ++
    "&chfield=%5BBug%20creation%5D" ++
    "&chfieldfrom=-60d" ++
    "&v1=%5Bmeta%5D"
  base ++ "&" ++ String.intercalate "&" (components.map (fun componentData =>
    "product=" ++ encodeURIComponent componentData.1 ++
    "&component=" ++ encodeURIComponent componentData.2))

/-- Model of the Layout variant's `generateIcsFile`. -/
def generateIcsFileLayout (dutyCycleHistory : History)
    (components : List (String × String)) : IcsFile :=
  { calname := "Layout Triage"
    timezone := "America/Los_Angeles"
    tzid := "America/Los_Angeles"
    refreshInterval := "VALUE=DURATION:P1H"
    calDesc := "Layout Triage"
    events := dutyCycleHistory.map (fun kv =>
      { start := parseDate kv.1
        stop := (parseDate kv.1).map (· + 7)
        summary := "Triage Duty: " ++ kv.2
        allDay := true
        transp := "TRANSPARENT"
        description := "<strong>" ++ kv.2 ++ ":</strong> " ++
          "<a href=\"" ++ generateBugzillaUrl components ++
          "\" title=\"Bugzilla Query\">Bugzilla Query</a>" }) }

/-- The dist/triage.json snapshot: two top-level mappings; `none` models a
missing (or null, hence falsy) top-level key. -/
structure Snapshot where
  triagers : Option (List (String × String))
  dutyStartDates : Option (List (String × String))
deriving DecidableEq, Repr

/-- Model of `appendDutyCycle`: throws when either top-level mapping is falsy;
otherwise seeds the triager metadata when absent (or falsy) and records the
date → name assignment. On error nothing is written. -/
def appendDutyCycle (snapshot : Snapshot) (date triagerName triagerData : String) :
    Except String Snapshot :=
  match snapshot.triagers, snapshot.dutyStartDates with
  | some triagers, some dutyStartDates =>
    let triagers2 :=
      match triagers.lookup triagerName with
      | none => insertKV triagers triagerName triagerData
      | some existing =>
        if existing = "" then insertKV triagers triagerName triagerData else triagers
    .ok ⟨some triagers2, some (insertKV dutyStartDates date triagerName)⟩
  | _, _ => .error "FATAL ERROR: Invalid data in calendar triage.json"

/-- Model of `runUpdate` (a11y variant): `config` is the ordered triagers
mapping; the result is the persisted (history file, snapshot, ICS file).
When the roster is empty the generated `triagerName` is `undefined`: JS then
stores `undefined` values, which `JSON.stringify` omits, so the persisted
history and snapshot lose (or never gain) the affected keys, while the
in-memory history passed to `generateIcsFile` renders them via template
literals as the text "undefined". -/
def runUpdate (config : List (String × String)) (dutyCycleHistory : History)
    (snapshot : Snapshot) (now : Nat) : Except String (History × Snapshot × IcsFile) :=
  let triagerNames := config.map Prod.fst
  match generateDutyCycle dutyCycleHistory triagerNames now with
  | .error e => .error e
  | .ok cyc =>
    match cyc.triagerName with
    | some triagerName =>
      let dutyCycleHistory2 := insertKV dutyCycleHistory cyc.date triagerName
      match appendDutyCycle snapshot cyc.date triagerName
          ((config.lookup triagerName).getD "") with
      | .error e => .error e
      | .ok snapshot2 => .ok (dutyCycleHistory2, snapshot2, generateIcsFile dutyCycleHistory2)
    | none =>
      match snapshot.triagers, snapshot.dutyStartDates with
      | some triagers, some dutyStartDates =>
        let triagers2 :=
          match triagers.lookup "undefined" with
          | some existing =>
            if existing = "" then triagers.filter (fun kv => kv.1 ≠ "undefined") else triagers
          | none => triagers
        .ok (dutyCycleHistory.filter (fun kv => kv.1 ≠ cyc.date),
          ⟨some triagers2, some (dutyStartDates.filter (fun kv => kv.1 ≠ cyc.date))⟩,
          generateIcsFile (insertKV dutyCycleHistory cyc.date "undefined"))
      | _, _ => .error "FATAL ERROR: Invalid data in calendar triage.json"

/-- Model of `runReset`: empty snapshot mappings, empty history, empty calendar. -/
def runReset : History × Snapshot × IcsFile :=
  ([], ⟨some [], some []⟩, generateIcsFile [])

/-- One regeneration of the published ICS file: the previous file contents are
ignored; the artifact is rebuilt from the complete history. -/
def writeIcsFile (dutyCycleHistory : History) (_prev : Option IcsFile) : Option IcsFile :=
  some (generateIcsFile dutyCycleHistory)

/-- One iteration of the C1 rotation experiment: generate the next cycle and
store it into the history (JS `dutyCycleHistory[date] = triagerName`). -/
def stepUpdate (triagerNames : List String) (now : Nat) (h : History) :
    Except String History :=
  match generateDutyCycle h triagerNames now with
  | .error e => .error e
  | .ok cyc =>
    match cyc.triagerName with
    | some nm => .ok (insertKV h cyc.date nm)
    | none => .ok h

def iterHist (triagerNames : List String) (now : Nat) (h : History) : Nat → Except String History
  | 0 => .ok h
  | j + 1 =>
    match iterHist triagerNames now h j with
    | .error e => .error e
    | .ok hj => stepUpdate triagerNames now hj

/-- The cycle generated by the (j+1)-st iteration, from the history after j steps. -/
def genAt (triagerNames : List String) (now : Nat) (h : History) (j : Nat) :
    Except String DutyCycle :=
  match iterHist triagerNames now h j with
  | .error e => .error e
  | .ok hj => generateDutyCycle hj triagerNames now

/-- The day number the rotation advances from: the parsed last history date, or
the engine's default start for an (effectively) empty history. -/
def startDay (h : History) (now : Nat) : Option Nat :=
  match getLastDutyCycle h with
  | .error _ => none
  | .ok none => some (getLastSunday now)
  | .ok (some (s, _)) => if s = "" then some (getLastSunday now) else parseDate s

/-- The last day of year 9999, the last day rendered in fixed-width form. -/
def maxCanonDay : Nat := civilToDays 9999 12 31

/-- The roster index the engine will use for its next assignment, read off the
current history: one past the index of the last assigned person (wrapping),
and 0 on an empty/irregular history or when that person is not in the roster. -/
def firstIdx (h : History) (roster : List String) : Nat :=
  match getLastDutyCycle h with
  | .ok (some (s, p)) =>
    if s = "" then 0
    else
      match roster.indexOf? p with
      | some i => (i + 1) % roster.length
      | none => 0
  | _ => 0

deriving instance DecidableEq for Except

theorem centSplit (doe : Nat) (h : doe < 146097) :
    36524 * min (doe / 36524) 3 + (doe - 36524 * min (doe / 36524) 3) = doe ∧
    min (doe / 36524) 3 ≤ 3 ∧ doe - 36524 * min (doe / 36524) 3 ≤ 36524 ∧
    (146037 ≤ doe → min (doe / 36524) 3 = 3 ∧ 36465 ≤ doe - 36524 * min (doe / 36524) 3) := by
  omega

theorem quadSplit (dcent : Nat) (h : dcent ≤ 36524) :
    1461 * min (dcent / 1461) 24 + (dcent - 1461 * min (dcent / 1461) 24) = dcent ∧
    min (dcent / 1461) 24 ≤ 24 ∧ dcent - 1461 * min (dcent / 1461) 24 ≤ 1460 ∧
    (36465 ≤ dcent → min (dcent / 1461) 24 = 24 ∧ 1401 ≤ dcent - 1461 * min (dcent / 1461) 24) := by
  omega

theorem yearSplit (dquad : Nat) (h : dquad ≤ 1460) :
    365 * min (dquad / 365) 3 + (dquad - 365 * min (dquad / 365) 3) = dquad ∧
    min (dquad / 365) 3 ≤ 3 ∧ dquad - 365 * min (dquad / 365) 3 ≤ 365 ∧
    (1401 ≤ dquad → min (dquad / 365) 3 = 3 ∧ 306 ≤ dquad - 365 * min (dquad / 365) 3) := by
  omega

theorem yoeDiv (c q yq : Nat) (hc : c ≤ 3) (hq : q ≤ 24) (hyq : yq ≤ 3) :
    (100 * c + 4 * q + yq) / 4 = 25 * c + q ∧ (100 * c + 4 * q + yq) / 100 = c := by
  omega

theorem monthSplit (doy : Nat) (h : doy ≤ 365) :
    (5 * doy + 2) / 153 ≤ 11 ∧ (153 * ((5 * doy + 2) / 153) + 2) / 5 ≤ doy ∧
    doy - (153 * ((5 * doy + 2) / 153) + 2) / 5 ≤ 30 ∧
    (306 ≤ doy ↔ 10 ≤ (5 * doy + 2) / 153) := by
  omega

theorem assemble2 (n era doe yoe mp dd : Nat)
    (hera : era = (n + 146037) / 146097) (hdoe : doe = (n + 146037) % 146097)
    (hyoe : yoe ≤ 399) (hmp : mp ≤ 11) (hd1 : 1 ≤ dd)
    (h0 : era = 0 → yoe = 399 ∧ 10 ≤ mp)
    (hfd : 365 * yoe + yoe / 4 - yoe / 100 + ((153 * mp + 2) / 5 + dd - 1) = doe) :
    civilToDays
      (yoe + era * 400 + (if (if mp < 10 then mp + 3 else mp - 9) ≤ 2 then 1 else 0) - 400)
      (if mp < 10 then mp + 3 else mp - 9) dd = n := by
  rcases Nat.lt_or_ge mp 10 with hmp10 | hmp10
  · have hera1 : 1 ≤ era := by
      rcases Nat.eq_zero_or_pos era with he | he
      · exact absurd (h0 he).2 (by omega)
      · exact he
    rw [if_pos hmp10, if_neg (show ¬ mp + 3 ≤ 2 by omega)]
    simp only [civilToDays]
    rw [if_neg (show ¬ mp + 3 ≤ 2 by omega), if_pos (show mp + 3 ≥ 3 by omega),
      Nat.add_sub_cancel]
    have hyAdj : yoe + era * 400 + 0 - 400 + 400 - 0 = yoe + era * 400 := by omega
    rw [hyAdj]
    have e1 : (yoe + era * 400) / 400 = era := by omega
    have e2 : (yoe + era * 400) % 400 = yoe := by omega
    rw [e1, e2]
    omega
  · have hy400 : 400 ≤ yoe + era * 400 + 1 := by
      rcases Nat.eq_zero_or_pos era with he | he
      · have := (h0 he).1
        omega
      · omega
    rw [if_neg (show ¬ mp < 10 by omega), if_pos (show mp - 9 ≤ 2 by omega)]
    simp only [civilToDays]
    rw [if_pos (show mp - 9 ≤ 2 by omega), if_neg (show ¬ mp - 9 ≥ 3 by omega),
      Nat.sub_add_cancel (show 9 ≤ mp by omega)]
    have hyAdj : yoe + era * 400 + 1 - 400 + 400 - 1 = yoe + era * 400 := by omega
    rw [hyAdj]
    have e1 : (yoe + era * 400) / 400 = era := by omega
    have e2 : (yoe + era * 400) % 400 = yoe := by omega
    rw [e1, e2]
    omega

set_option maxHeartbeats 1000000 in
theorem civil_roundTrip (n y m d : Nat) (h : civilFromDays n = (y, m, d)) :
    civilToDays y m d = n := by
  simp only [civilFromDays] at h
  generalize hera : (n + 146037) / 146097 = era at h
  generalize hdoe : (n + 146037) % 146097 = doe at h
  generalize hc : min (doe / 36524) 3 = c at h
  generalize hdc : doe - 36524 * c = dcent at h
  generalize hq : min (dcent / 1461) 24 = q at h
  generalize hdq : dcent - 1461 * q = dquad at h
  generalize hyq : min (dquad / 365) 3 = yq at h
  generalize hdoy : dquad - 365 * yq = doy at h
  generalize hmp : (5 * doy + 2) / 153 = mp at h
  generalize hyoe : 100 * c + 4 * q + yq = yoe at h
  generalize hdd : doy - (153 * mp + 2) / 5 + 1 = dd at h
  rw [Prod.mk.injEq, Prod.mk.injEq] at h
  obtain ⟨h1, h2, h3⟩ := h
  subst h1 h2 h3
  have hdlt : doe < 146097 := by omega
  have s1 : 36524 * c + dcent = doe ∧ dcent ≤ 36524 ∧ c ≤ 3 := by omega
  have s2 : 1461 * q + dquad = dcent ∧ dquad ≤ 1460 ∧ q ≤ 24 := by omega
  have s3 : 365 * yq + doy = dquad ∧ doy ≤ 365 ∧ yq ≤ 3 := by omega
  have hf4 : yoe / 4 = 25 * c + q := by omega
  have hf100 : yoe / 100 = c := by omega
  have hmpb : mp ≤ 11 := by omega
  have he5 : (153 * mp + 2) / 5 ≤ doy ∧ doy - (153 * mp + 2) / 5 ≤ 30 := by omega
  apply assemble2 n era doe yoe mp dd hera.symm hdoe.symm
  · omega
  · exact hmpb
  · omega
  · intro he
    have hbig : 146037 ≤ doe := by omega
    have hc3 : c = 3 := by omega
    have hdc1 : 36465 ≤ dcent := by omega
    have hq24 : q = 24 := by omega
    have hdq1 : 1401 ≤ dquad := by omega
    have hyq3 : yq = 3 := by omega
    have hdoy1 : 306 ≤ doy := by omega
    constructor
    · omega
    · omega
  · omega

theorem towerFacts (z era doe c dcent q dquad yq doy mp yoe dd : Nat)
    (hera : z / 146097 = era) (hdoe : z % 146097 = doe)
    (hc : min (doe / 36524) 3 = c) (hdc : doe - 36524 * c = dcent)
    (hq : min (dcent / 1461) 24 = q) (hdq : dcent - 1461 * q = dquad)
    (hyq : min (dquad / 365) 3 = yq) (hdoy : dquad - 365 * yq = doy)
    (hmp : (5 * doy + 2) / 153 = mp) (hyoe : 100 * c + 4 * q + yq = yoe)
    (hdd : doy - (153 * mp + 2) / 5 + 1 = dd)
    (hzge : 146037 ≤ z) :
    (36524 * c + 1461 * q + 365 * yq + doy = doe) ∧ c ≤ 3 ∧ q ≤ 24 ∧ yq ≤ 3 ∧ doy ≤ 365 ∧
    yoe ≤ 399 ∧ mp ≤ 11 ∧ (153 * mp + 2) / 5 ≤ doy ∧ doy - (153 * mp + 2) / 5 ≤ 30 ∧
    1 ≤ dd ∧ dd ≤ 31 ∧ (era = 0 → yoe = 399 ∧ 10 ≤ mp) ∧ (306 ≤ doy ↔ 10 ≤ mp) ∧
    dcent ≤ 36524 ∧ dquad ≤ 1460 ∧ doe < 146097 := by
  have hdlt : doe < 146097 := by omega
  have s1 : 36524 * c + dcent = doe ∧ dcent ≤ 36524 ∧ c ≤ 3 := by omega
  have s2 : 1461 * q + dquad = dcent ∧ dquad ≤ 1460 ∧ q ≤ 24 := by omega
  have s3 : 365 * yq + doy = dquad ∧ doy ≤ 365 ∧ yq ≤ 3 := by omega
  have hmpb : mp ≤ 11 := by omega
  have he5 : (153 * mp + 2) / 5 ≤ doy ∧ doy - (153 * mp + 2) / 5 ≤ 30 := by omega
  have h306 : (306 ≤ doy ↔ 10 ≤ mp) := by omega
  refine ⟨by omega, s1.2.2, s2.2.2, s3.2.2, s3.2.1, by omega, hmpb, he5.1, he5.2,
    by omega, by omega, ?_, h306, s1.2.1, s2.2.1, hdlt⟩
  intro he
  have hbig : 146037 ≤ doe := by omega
  have hc3 : c = 3 := by omega
  have hdc1 : 36465 ≤ dcent := by omega
  have hq24 : q = 24 := by omega
  have hdq1 : 1401 ≤ dquad := by omega
  have hyq3 : yq = 3 := by omega
  have hdoy1 : 306 ≤ doy := by omega
  exact ⟨by omega, by omega⟩


theorem relEra (z era doe era2 doe2 : Nat)
    (h1 : z / 146097 = era) (h2 : z % 146097 = doe)
    (h3 : (z + 1) / 146097 = era2) (h4 : (z + 1) % 146097 = doe2) :
    (era2 = era ∧ doe2 = doe + 1) ∨ (era2 = era + 1 ∧ doe2 = 0 ∧ doe = 146096) := by
  omega

theorem relCent (doe doe2 c dcent c2 dcent2 : Nat)
    (hc : min (doe / 36524) 3 = c) (hdc : doe - 36524 * c = dcent)
    (hc2 : min (doe2 / 36524) 3 = c2) (hdc2 : doe2 - 36524 * c2 = dcent2)
    (hinc : doe2 = doe + 1) (hlt : doe2 ≤ 146096) :
    (c2 = c ∧ dcent2 = dcent + 1) ∨ (c2 = c + 1 ∧ dcent2 = 0 ∧ dcent = 36523) := by
  omega

theorem relQuad (dcent dcent2 q dquad q2 dquad2 : Nat)
    (hq : min (dcent / 1461) 24 = q) (hdq : dcent - 1461 * q = dquad)
    (hq2 : min (dcent2 / 1461) 24 = q2) (hdq2 : dcent2 - 1461 * q2 = dquad2)
    (hinc : dcent2 = dcent + 1) (hlt : dcent2 ≤ 36524) :
    (q2 = q ∧ dquad2 = dquad + 1) ∨ (q2 = q + 1 ∧ dquad2 = 0 ∧ dquad = 1460) := by
  omega

theorem relYear (dquad dquad2 yq doy yq2 doy2 : Nat)
    (hyq : min (dquad / 365) 3 = yq) (hdoy : dquad - 365 * yq = doy)
    (hyq2 : min (dquad2 / 365) 3 = yq2) (hdoy2 : dquad2 - 365 * yq2 = doy2)
    (hinc : dquad2 = dquad + 1) (hlt : dquad2 ≤ 1460) :
    (yq2 = yq ∧ doy2 = doy + 1) ∨ (yq2 = yq + 1 ∧ doy2 = 0 ∧ doy = 364) := by
  omega

theorem relMonth (doy doy2 mp mp2 dd dd2 : Nat)
    (hmp : (5 * doy + 2) / 153 = mp) (hmp2 : (5 * doy2 + 2) / 153 = mp2)
    (hdd : doy - (153 * mp + 2) / 5 + 1 = dd) (hdd2 : doy2 - (153 * mp2 + 2) / 5 + 1 = dd2)
    (hinc : doy2 = doy + 1) (hlt : doy2 ≤ 365)
    (hle : (153 * mp + 2) / 5 ≤ doy) (hle2 : (153 * mp2 + 2) / 5 ≤ doy2) :
    (mp2 = mp ∧ dd2 = dd + 1) ∨ (mp2 = mp + 1 ∧ dd2 = 1) := by
  have hb : mp ≤ mp2 ∧ mp2 ≤ mp + 1 := by omega
  rcases Nat.eq_or_lt_of_le hb.1 with heq | hlt2
  · subst heq
    left
    omega
  · have h1 : mp2 = mp + 1 := by omega
    subst h1
    right
    omega

theorem pinDoy364 (doy mp dd : Nat) (hmp : (5 * doy + 2) / 153 = mp)
    (hdd : doy - (153 * mp + 2) / 5 + 1 = dd) (h : doy = 364) : mp = 11 ∧ dd = 28 := by
  omega

theorem pinDoy365 (doy mp dd : Nat) (hmp : (5 * doy + 2) / 153 = mp)
    (hdd : doy - (153 * mp + 2) / 5 + 1 = dd) (h : doy = 365) : mp = 11 ∧ dd = 29 := by
  omega

theorem pinDoy0 (doy mp dd : Nat) (hmp : (5 * doy + 2) / 153 = mp)
    (hdd : doy - (153 * mp + 2) / 5 + 1 = dd) (h : doy = 0) : mp = 0 ∧ dd = 1 := by
  omega

theorem pinTop (doe c dcent q dquad yq doy : Nat)
    (hc : min (doe / 36524) 3 = c) (hdc : doe - 36524 * c = dcent)
    (hq : min (dcent / 1461) 24 = q) (hdq : dcent - 1461 * q = dquad)
    (hyq : min (dquad / 365) 3 = yq) (hdoy : dquad - 365 * yq = doy)
    (h : doe = 146096) : c = 3 ∧ q = 24 ∧ yq = 3 ∧ doy = 365 := by
  omega

theorem pinZero (doe c dcent q dquad yq doy : Nat)
    (hc : min (doe / 36524) 3 = c) (hdc : doe - 36524 * c = dcent)
    (hq : min (dcent / 1461) 24 = q) (hdq : dcent - 1461 * q = dquad)
    (hyq : min (dquad / 365) 3 = yq) (hdoy : dquad - 365 * yq = doy)
    (h : doe = 0) : c = 0 ∧ q = 0 ∧ yq = 0 ∧ doy = 0 := by
  omega

theorem pinCent36523 (dcent q dquad yq doy : Nat)
    (hq : min (dcent / 1461) 24 = q) (hdq : dcent - 1461 * q = dquad)
    (hyq : min (dquad / 365) 3 = yq) (hdoy : dquad - 365 * yq = doy)
    (h : dcent = 36523) : q = 24 ∧ yq = 3 ∧ doy = 364 := by
  omega

theorem pinCent0 (dcent q dquad yq doy : Nat)
    (hq : min (dcent / 1461) 24 = q) (hdq : dcent - 1461 * q = dquad)
    (hyq : min (dquad / 365) 3 = yq) (hdoy : dquad - 365 * yq = doy)
    (h : dcent = 0) : q = 0 ∧ yq = 0 ∧ doy = 0 := by
  omega

theorem pinQuad0 (dquad yq doy : Nat)
    (hyq : min (dquad / 365) 3 = yq) (hdoy : dquad - 365 * yq = doy)
    (h : dquad = 0) : yq = 0 ∧ doy = 0 := by
  omega

set_option maxHeartbeats 4000000 in
theorem civil_succ_lex (n y m d y2 m2 d2 : Nat)
    (h1 : civilFromDays n = (y, m, d)) (h2 : civilFromDays (n + 1) = (y2, m2, d2)) :
    y < y2 ∨ (y = y2 ∧ (m < m2 ∨ (m = m2 ∧ d < d2))) := by
  simp only [civilFromDays] at h1 h2
  rw [show n + 1 + 146037 = n + 146037 + 1 from by omega] at h2
  generalize hz : n + 146037 = z at h1 h2
  generalize hera : z / 146097 = era at h1
  generalize hdoe : z % 146097 = doe at h1
  generalize hc : min (doe / 36524) 3 = c at h1
  generalize hdc : doe - 36524 * c = dcent at h1
  generalize hq : min (dcent / 1461) 24 = q at h1
  generalize hdq : dcent - 1461 * q = dquad at h1
  generalize hyq : min (dquad / 365) 3 = yq at h1
  generalize hdoy : dquad - 365 * yq = doy at h1
  generalize hmp : (5 * doy + 2) / 153 = mp at h1
  generalize hyoe : 100 * c + 4 * q + yq = yoe at h1
  generalize hdd : doy - (153 * mp + 2) / 5 + 1 = dd at h1
  generalize hera2 : (z + 1) / 146097 = era2 at h2
  generalize hdoe2 : (z + 1) % 146097 = doe2 at h2
  generalize hc2 : min (doe2 / 36524) 3 = c2 at h2
  generalize hdc2 : doe2 - 36524 * c2 = dcent2 at h2
  generalize hq2 : min (dcent2 / 1461) 24 = q2 at h2
  generalize hdq2 : dcent2 - 1461 * q2 = dquad2 at h2
  generalize hyq2 : min (dquad2 / 365) 3 = yq2 at h2
  generalize hdoy2 : dquad2 - 365 * yq2 = doy2 at h2
  generalize hmp2 : (5 * doy2 + 2) / 153 = mp2 at h2
  generalize hyoe2 : 100 * c2 + 4 * q2 + yq2 = yoe2 at h2
  generalize hdd2 : doy2 - (153 * mp2 + 2) / 5 + 1 = dd2 at h2
  have tf1 := towerFacts z era doe c dcent q dquad yq doy mp yoe dd
    hera hdoe hc hdc hq hdq hyq hdoy hmp hyoe hdd (by omega)
  have tf2 := towerFacts (z + 1) era2 doe2 c2 dcent2 q2 dquad2 yq2 doy2 mp2 yoe2 dd2
    hera2 hdoe2 hc2 hdc2 hq2 hdq2 hyq2 hdoy2 hmp2 hyoe2 hdd2 (by omega)
  obtain ⟨ta1, ta2, ta3, ta4, ta5, ta6, ta7, ta8, ta9, ta10, ta11, ta12, ta13, ta14, ta15, ta16⟩ := tf1
  obtain ⟨tb1, tb2, tb3, tb4, tb5, tb6, tb7, tb8, tb9, tb10, tb11, tb12, tb13, tb14, tb15, tb16⟩ := tf2
  have rel1 := relEra z era doe era2 doe2 hera hdoe hera2 hdoe2
  rw [Prod.mk.injEq, Prod.mk.injEq] at h1 h2
  obtain ⟨e1, e2, e3⟩ := h1
  obtain ⟨f1, f2, f3⟩ := h2
  subst e1 e2 e3 f1 f2 f3
  rcases rel1 with ⟨g1, g2⟩ | ⟨g1, g2, g3⟩
  · -- same era, doe increments
    have rel2 := relCent doe doe2 c dcent c2 dcent2 hc hdc hc2 hdc2 g2 (by omega)
    rcases rel2 with ⟨k1, k2⟩ | ⟨k1, k2, k3⟩
    · have rel3 := relQuad dcent dcent2 q dquad q2 dquad2 hq hdq hq2 hdq2 k2 (by omega)
      rcases rel3 with ⟨l1, l2⟩ | ⟨l1, l2, l3⟩
      · have rel4 := relYear dquad dquad2 yq doy yq2 doy2 hyq hdoy hyq2 hdoy2 l2 (by omega)
        rcases rel4 with ⟨p1, p2⟩ | ⟨p1, p2, p3⟩
        · have rel5 := relMonth doy doy2 mp mp2 dd dd2 hmp hmp2 hdd hdd2 p2 (by omega) ta8 tb8
          clear hz hera hdoe hc hdc hq hdq hyq hdoy hmp hdd
          clear hera2 hdoe2 hc2 hdc2 hq2 hdq2 hyq2 hdoy2 hmp2 hdd2
          clear ta8 ta9 tb8 tb9 ta1 tb1
          rcases rel5 with ⟨r1, r2⟩ | ⟨r1, r2⟩ <;> split_ifs <;> omega
        · have pina := pinDoy364 doy mp dd hmp hdd p3
          have pinb := pinDoy0 doy2 mp2 dd2 hmp2 hdd2 p2
          clear hz hera hdoe hc hdc hq hdq hyq hdoy hmp hdd
          clear hera2 hdoe2 hc2 hdc2 hq2 hdq2 hyq2 hdoy2 hmp2 hdd2
          clear ta8 ta9 tb8 tb9 ta1 tb1
          split_ifs <;> omega
      · have pina := pinDoy365 doy mp dd hmp hdd (by omega)
        have pinb := pinQuad0 dquad2 yq2 doy2 hyq2 hdoy2 l2
        have pinc := pinDoy0 doy2 mp2 dd2 hmp2 hdd2 (by omega)
        have pind : yq = 3 := by omega
        clear hz hera hdoe hc hdc hq hdq hyq hdoy hmp hdd
        clear hera2 hdoe2 hc2 hdc2 hq2 hdq2 hyq2 hdoy2 hmp2 hdd2
        clear ta8 ta9 tb8 tb9 ta1 tb1
        split_ifs <;> omega
    · have pina := pinCent36523 dcent q dquad yq doy hq hdq hyq hdoy k3
      have pinb := pinCent0 dcent2 q2 dquad2 yq2 doy2 hq2 hdq2 hyq2 hdoy2 k2
      have pinc := pinDoy364 doy mp dd hmp hdd (by omega)
      have pind := pinDoy0 doy2 mp2 dd2 hmp2 hdd2 (by omega)
      clear hz hera hdoe hc hdc hq hdq hyq hdoy hmp hdd
      clear hera2 hdoe2 hc2 hdc2 hq2 hdq2 hyq2 hdoy2 hmp2 hdd2
      clear ta8 ta9 tb8 tb9 ta1 tb1
      split_ifs <;> omega
  · have pina := pinTop doe c dcent q dquad yq doy hc hdc hq hdq hyq hdoy g3
    have pinb := pinZero doe2 c2 dcent2 q2 dquad2 yq2 doy2 hc2 hdc2 hq2 hdq2 hyq2 hdoy2 g2
    have pinc := pinDoy365 doy mp dd hmp hdd (by omega)
    have pind := pinDoy0 doy2 mp2 dd2 hmp2 hdd2 (by omega)
    clear hz hera hdoe hc hdc hq hdq hyq hdoy hmp hdd
    clear hera2 hdoe2 hc2 hdc2 hq2 hdq2 hyq2 hdoy2 hmp2 hdd2
    clear ta8 ta9 tb8 tb9 ta1 tb1
    split_ifs <;> omega

theorem digitVal?_digitChar (k : Nat) (h : k ≤ 9) : digitVal? (digitChar k) = some k := by
  interval_cases k <;> decide

theorem digitChar_lt_aux : ∀ a : Nat, a < 10 → ∀ b : Nat, b < 10 → a < b → digitChar a < digitChar b := by
  decide

theorem digitChar_lt (a b : Nat) (hab : a < b) (hb : b ≤ 9) : digitChar a < digitChar b :=
  digitChar_lt_aux a (by omega) b (by omega) hab

theorem digitVal?_le (c : Char) (k : Nat) (h : digitVal? c = some k) : k ≤ 9 := by
  unfold digitVal? at h
  split at h
  · rename_i hc
    injection h with h
    omega
  · simp at h

theorem readDigits_pad (y m d : Nat) (hy : y ≤ 9999) (hm : m ≤ 99) (hd : d ≤ 99) :
    readDigits (pad4 y ++ '-' :: (pad2 m ++ '-' :: pad2 d)) = some (y, m, d) := by
  have hshape : pad4 y ++ '-' :: (pad2 m ++ '-' :: pad2 d) =
      [digitChar (y / 100 / 10), digitChar (y / 100 % 10), digitChar (y % 100 / 10),
       digitChar (y % 100 % 10), '-', digitChar (m / 10), digitChar (m % 10), '-',
       digitChar (d / 10), digitChar (d % 10)] := by
    simp [pad4, pad2]
  rw [hshape]
  show (if ('-' : Char) = '-' ∧ ('-' : Char) = '-' then
      match digitVal? (digitChar (y / 100 / 10)), digitVal? (digitChar (y / 100 % 10)),
            digitVal? (digitChar (y % 100 / 10)), digitVal? (digitChar (y % 100 % 10)),
            digitVal? (digitChar (m / 10)), digitVal? (digitChar (m % 10)),
            digitVal? (digitChar (d / 10)), digitVal? (digitChar (d % 10)) with
      | some a, some b, some c, some e, some f, some g, some h, some i =>
          some (a * 1000 + b * 100 + c * 10 + e, f * 10 + g, h * 10 + i)
      | _, _, _, _, _, _, _, _ => none
    else none) = some (y, m, d)
  rw [if_pos ⟨rfl, rfl⟩]
  rw [digitVal?_digitChar (y / 100 / 10) (by omega), digitVal?_digitChar (y / 100 % 10) (by omega),
    digitVal?_digitChar (y % 100 / 10) (by omega), digitVal?_digitChar (y % 100 % 10) (by omega),
    digitVal?_digitChar (m / 10) (by omega), digitVal?_digitChar (m % 10) (by omega),
    digitVal?_digitChar (d / 10) (by omega), digitVal?_digitChar (d % 10) (by omega)]
  show some (y / 100 / 10 * 1000 + y / 100 % 10 * 100 + y % 100 / 10 * 10 + y % 100 % 10,
      m / 10 * 10 + m % 10, d / 10 * 10 + d % 10) = some (y, m, d)
  simp only [Option.some.injEq, Prod.mk.injEq]
  refine ⟨by omega, by omega, by omega⟩

theorem civil_bounds (n y m d : Nat) (h : civilFromDays n = (y, m, d)) :
    1 ≤ m ∧ m ≤ 12 ∧ 1 ≤ d ∧ d ≤ 31 := by
  simp only [civilFromDays] at h
  generalize hera : (n + 146037) / 146097 = era at h
  generalize hdoe : (n + 146037) % 146097 = doe at h
  generalize hc : min (doe / 36524) 3 = c at h
  generalize hdc : doe - 36524 * c = dcent at h
  generalize hq : min (dcent / 1461) 24 = q at h
  generalize hdq : dcent - 1461 * q = dquad at h
  generalize hyq : min (dquad / 365) 3 = yq at h
  generalize hdoy : dquad - 365 * yq = doy at h
  generalize hmp : (5 * doy + 2) / 153 = mp at h
  generalize hyoe : 100 * c + 4 * q + yq = yoe at h
  generalize hdd : doy - (153 * mp + 2) / 5 + 1 = dd at h
  have tf := towerFacts (n + 146037) era doe c dcent q dquad yq doy mp yoe dd
    hera hdoe hc hdc hq hdq hyq hdoy hmp hyoe hdd (by omega)
  rw [Prod.mk.injEq, Prod.mk.injEq] at h
  obtain ⟨h1, h2, h3⟩ := h
  subst h1 h2 h3
  split_ifs <;> omega

theorem printDate_eq (n y m d : Nat) (h : civilFromDays n = (y, m, d)) (hy : y ≤ 9999) :
    printDate n = ⟨pad4 y ++ '-' :: (pad2 m ++ '-' :: pad2 d)⟩ := by
  simp only [printDate, h]
  rw [if_pos hy]

theorem printDate_eq_big (n y m d : Nat) (h : civilFromDays n = (y, m, d)) (hy : 9999 < y) :
    printDate n = ⟨'+' :: (pad6 y ++ '-' :: (pad2 m ++ '-' :: pad2 d))⟩ := by
  simp only [printDate, h]
  rw [if_neg (by omega)]

theorem parseDate_printDate (n y m d : Nat) (h : civilFromDays n = (y, m, d)) (hy : y ≤ 9999) :
    parseDate (printDate n) = some n := by
  obtain ⟨hm1, hm2, hd1, hd2⟩ := civil_bounds n y m d h
  have hpe := printDate_eq n y m d h hy
  rw [hpe]
  have hrd : readDigits (String.mk (pad4 y ++ '-' :: (pad2 m ++ '-' :: pad2 d))).data =
      some (y, m, d) := by
    show readDigits (pad4 y ++ '-' :: (pad2 m ++ '-' :: pad2 d)) = some (y, m, d)
    exact readDigits_pad y m d hy (by omega) (by omega)
  simp only [parseDate, hrd]
  have hct : civilToDays y m d = n := civil_roundTrip n y m d h
  rw [hct, if_pos hpe]

theorem parseDate_inv (s : String) (n : Nat) (h : parseDate s = some n) : printDate n = s := by
  unfold parseDate at h
  cases hrd : readDigits s.data with
  | none => rw [hrd] at h; exact absurd h (by simp)
  | some ymd =>
    obtain ⟨y, m, d⟩ := ymd
    rw [hrd] at h
    have h' : (if printDate (civilToDays y m d) = s then some (civilToDays y m d)
        else none) = some n := h
    by_cases hcond : printDate (civilToDays y m d) = s
    · rw [if_pos hcond] at h'
      have h2 := Option.some.inj h'
      exact h2 ▸ hcond
    · rw [if_neg hcond] at h'
      exact absurd h' (by simp)

theorem readDigits_bounds (l : List Char) (y m d : Nat) (h : readDigits l = some (y, m, d)) :
    y ≤ 9999 ∧ m ≤ 99 ∧ d ≤ 99 := by
  unfold readDigits at h
  split at h
  · split at h
    · split at h
      · rename_i a b c e f g hh i ha hb hc he hf hg hhh hi
        have h1 := Option.some.inj h
        rw [Prod.mk.injEq, Prod.mk.injEq] at h1
        obtain ⟨h1, h2, h3⟩ := h1
        have := digitVal?_le _ _ ha
        have := digitVal?_le _ _ hb
        have := digitVal?_le _ _ hc
        have := digitVal?_le _ _ he
        have := digitVal?_le _ _ hf
        have := digitVal?_le _ _ hg
        have := digitVal?_le _ _ hhh
        have := digitVal?_le _ _ hi
        omega
      · exact absurd h (by simp)
    · exact absurd h (by simp)
  · exact absurd h (by simp)

theorem readDigits_length (l : List Char) (t : Nat × Nat × Nat) (h : readDigits l = some t) :
    l.length = 10 := by
  unfold readDigits at h
  split at h
  · rfl
  · exact absurd h (by simp)

theorem parseDate_year_le (s : String) (n : Nat) (h : parseDate s = some n) :
    (civilFromDays n).1 ≤ 9999 := by
  have hps := parseDate_inv s n h
  unfold parseDate at h
  cases hrd : readDigits s.data with
  | none => rw [hrd] at h; exact absurd h (by simp)
  | some ymd =>
    obtain ⟨y, m, d⟩ := ymd
    by_contra hbig
    rcases hfd : civilFromDays n with ⟨y2, m2, d2⟩
    rw [hfd] at hbig
    have hpe := printDate_eq_big n y2 m2 d2 hfd (by omega)
    rw [hpe] at hps
    have hdata : ('+' :: (pad6 y2 ++ '-' :: (pad2 m2 ++ '-' :: pad2 d2))) = s.data :=
      congrArg String.data hps
    have hlen10 : s.data.length = 10 := readDigits_length s.data (y, m, d) hrd
    rw [← hdata] at hlen10
    simp [pad6, pad4, pad2] at hlen10


theorem ymdLex_trans {a b c : Nat × Nat × Nat} (h1 : ymdLex a b) (h2 : ymdLex b c) :
    ymdLex a c := by
  obtain ⟨a1, a2, a3⟩ := a
  obtain ⟨b1, b2, b3⟩ := b
  obtain ⟨c1, c2, c3⟩ := c
  simp only [ymdLex] at h1 h2 ⊢
  omega

theorem civil_succ_lex2 (n : Nat) : ymdLex (civilFromDays n) (civilFromDays (n + 1)) := by
  rcases h1 : civilFromDays n with ⟨y, m, d⟩
  rcases h2 : civilFromDays (n + 1) with ⟨y2, m2, d2⟩
  have := civil_succ_lex n y m d y2 m2 d2 h1 h2
  simp only [ymdLex]
  exact this

theorem civil_lt_lex (n n2 : Nat) (h : n < n2) :
    ymdLex (civilFromDays n) (civilFromDays n2) := by
  obtain ⟨k, rfl⟩ : ∃ k, n2 = n + 1 + k := ⟨n2 - (n + 1), by omega⟩
  clear h
  induction k with
  | zero => exact civil_succ_lex2 n
  | succ k ih =>
    have hstep := civil_succ_lex2 (n + 1 + k)
    rw [show n + 1 + (k + 1) = n + 1 + k + 1 from by omega]
    exact ymdLex_trans ih hstep

theorem civil_year_mono (n n2 : Nat) (h : n ≤ n2) :
    (civilFromDays n).1 ≤ (civilFromDays n2).1 := by
  rcases Nat.eq_or_lt_of_le h with rfl | hlt
  · exact le_refl _
  · have := civil_lt_lex n n2 hlt
    rcases hfa : civilFromDays n with ⟨y, m, d⟩
    rcases hfb : civilFromDays n2 with ⟨y2, m2, d2⟩
    rw [hfa, hfb] at this
    simp only [ymdLex] at this
    simp only [hfa, hfb]
    omega

theorem lexLt_append_left {r1 r2 : List Char} :
    ∀ {l1 l2 : List Char}, l1.length = l2.length → List.Lex (· < ·) l1 l2 →
      List.Lex (· < ·) (l1 ++ r1) (l2 ++ r2) := by
  intro l1 l2 hlen h
  induction h with
  | nil => simp at hlen
  | cons h ih => exact List.Lex.cons (ih (by simpa using hlen))
  | rel h => exact List.Lex.rel h

theorem lexLt_append_right (l : List Char) {r1 r2 : List Char}
    (h : List.Lex (· < ·) r1 r2) : List.Lex (· < ·) (l ++ r1) (l ++ r2) := by
  induction l with
  | nil => simpa using h
  | cons a t ih =>
    simp only [List.cons_append]
    exact List.Lex.cons ih

theorem pad2_lt (a b : Nat) (hab : a < b) (hb : b ≤ 99) :
    List.Lex (· < ·) (pad2 a) (pad2 b) := by
  rcases Nat.lt_or_ge (a / 10) (b / 10) with h | h
  · exact List.Lex.rel (digitChar_lt _ _ h (by omega))
  · have heq : a / 10 = b / 10 := by omega
    simp only [pad2, heq]
    exact List.Lex.cons (List.Lex.rel (digitChar_lt _ _ (by omega) (by omega)))

theorem pad2_length (a : Nat) : (pad2 a).length = 2 := rfl

theorem pad4_lt (a b : Nat) (hab : a < b) (hb : b ≤ 9999) :
    List.Lex (· < ·) (pad4 a) (pad4 b) := by
  rcases Nat.lt_or_ge (a / 100) (b / 100) with h | h
  · exact lexLt_append_left (by simp [pad2_length]) (pad2_lt _ _ h (by omega))
  · have heq : a / 100 = b / 100 := by omega
    simp only [pad4, heq]
    exact lexLt_append_right _ (pad2_lt _ _ (by omega) (by omega))

theorem printDate_lt (n n2 : Nat) (h : n < n2) (hy2 : (civilFromDays n2).1 ≤ 9999) :
    printDate n < printDate n2 := by
  rcases ha : civilFromDays n with ⟨y, m, d⟩
  rcases hb : civilFromDays n2 with ⟨y2, m2, d2⟩
  have hy2' : y2 ≤ 9999 := by rw [hb] at hy2; exact hy2
  have hy1 : y ≤ 9999 := by
    have := civil_year_mono n n2 (le_of_lt h)
    rw [ha, hb] at this
    simp only at this
    omega
  obtain ⟨hm1, hm2, hd1, hd2⟩ := civil_bounds n y m d ha
  obtain ⟨hm1b, hm2b, hd1b, hd2b⟩ := civil_bounds n2 y2 m2 d2 hb
  have hlex := civil_lt_lex n n2 h
  rw [ha, hb] at hlex
  simp only [ymdLex] at hlex
  rw [printDate_eq n y m d ha hy1, printDate_eq n2 y2 m2 d2 hb hy2',
    String.lt_iff_toList_lt]
  have hgoal : List.Lex (· < ·) (pad4 y ++ '-' :: (pad2 m ++ '-' :: pad2 d))
      (pad4 y2 ++ '-' :: (pad2 m2 ++ '-' :: pad2 d2)) := by
    rcases hlex with hylt | ⟨hyeq, hmlt | ⟨hmeq, hdlt⟩⟩
    · exact lexLt_append_left (by simp [pad4, pad2_length]) (pad4_lt _ _ hylt hy2')
    · subst hyeq
      apply lexLt_append_right
      exact List.Lex.cons (lexLt_append_left (by simp [pad2_length])
        (pad2_lt _ _ hmlt (by omega)))
    · subst hyeq hmeq
      apply lexLt_append_right
      apply List.Lex.cons
      apply lexLt_append_right
      exact List.Lex.cons (pad2_lt _ _ hdlt (by omega))
  exact hgoal

theorem printDate_ne_empty (n : Nat) : printDate n ≠ "" := by
  rcases hfd : civilFromDays n with ⟨y, m, d⟩
  by_cases hy : y ≤ 9999
  · rw [printDate_eq n y m d hfd hy]
    intro hcon
    have := congrArg String.data hcon
    simp [pad4, pad2] at this
  · rw [printDate_eq_big n y m d hfd (by omega)]
    intro hcon
    have := congrArg String.data hcon
    simp at this

theorem pairwise_le_getLast :
    ∀ (l : List String) (h : l ≠ []), l.Pairwise (· ≤ ·) → ∀ x ∈ l, x ≤ l.getLast h
  | [], h, _, _, hx => absurd rfl h
  | [a], _, _, x, hx => by
    simp only [List.mem_singleton] at hx
    subst hx
    exact le_refl _
  | a :: b :: t, _, hp, x, hx => by
    rw [List.getLast_cons (List.cons_ne_nil b t)]
    rcases List.mem_cons.mp hx with rfl | hx2
    · have hmem := List.getLast_mem (List.cons_ne_nil b t)
      exact (List.pairwise_cons.mp hp).1 _ hmem
    · exact pairwise_le_getLast (b :: t) (List.cons_ne_nil b t)
        (List.pairwise_cons.mp hp).2 x hx2

theorem insertionSort_getLast?_max (l : List String) (M : String) (hmem : M ∈ l)
    (hmax : ∀ x ∈ l, x ≤ M) :
    (l.insertionSort (· ≤ ·)).getLast? = some M := by
  have hperm := List.perm_insertionSort (α := String) (· ≤ ·) l
  have hsorted2 : (l.insertionSort (· ≤ ·)).Pairwise (· ≤ ·) :=
    List.sorted_insertionSort (· ≤ ·) l
  have hne : l.insertionSort (· ≤ ·) ≠ [] := by
    intro hcon
    rw [hcon] at hperm
    rw [hperm.symm.eq_nil] at hmem
    exact absurd hmem (List.not_mem_nil M)
  rw [List.getLast?_eq_getLast _ hne]
  have hLmem : (l.insertionSort (· ≤ ·)).getLast hne ∈ l :=
    hperm.mem_iff.mp (List.getLast_mem hne)
  have hMmem : M ∈ l.insertionSort (· ≤ ·) := hperm.mem_iff.mpr hmem
  have h1 : (l.insertionSort (· ≤ ·)).getLast hne ≤ M := hmax _ hLmem
  have h2 : M ≤ (l.insertionSort (· ≤ ·)).getLast hne :=
    pairwise_le_getLast _ hne hsorted2 M hMmem
  exact congrArg some (le_antisymm h1 h2)

theorem indexOf?_getElem (l : List String) (hnd : l.Nodup) (i : Nat) (hi : i < l.length) :
    l.indexOf? l[i] = some i := by
  induction l generalizing i with
  | nil => simp at hi
  | cons a t ih =>
    rcases i with _ | j
    · simp [List.indexOf?_cons]
    · have hj : j < t.length := by simpa using hi
      have hmem : t[j] ∈ t := List.getElem_mem _
      have hne : ¬ a == t[j] := by
        simp only [beq_iff_eq]
        intro hcon
        rw [hcon] at hnd
        exact (List.pairwise_cons.mp hnd).1 _ hmem rfl
      simp only [List.getElem_cons_succ, List.indexOf?_cons, hne, if_neg]
      rw [ih (List.pairwise_cons.mp hnd).2 j (by simpa using hi)]
      rfl

theorem indexOf?_eq_none_of_not_mem (l : List String) (a : String) (ha : a ∉ l) :
    l.indexOf? a = none := by
  rw [List.indexOf?_eq_none_iff]
  intro x hx
  simp only [beq_iff_eq]
  intro hcon
  exact ha (hcon ▸ hx)

theorem parseDate_empty : parseDate "" = none := rfl

theorem getLastDutyCycle_ok_ne (h : History) (s p : String)
    (hgl : getLastDutyCycle h = .ok (some (s, p))) : p ≠ "" := by
  simp only [getLastDutyCycle] at hgl
  split at hgl
  · exact absurd hgl (by simp)
  · split at hgl
    · exact absurd hgl (by simp)
    · split at hgl
      · exact absurd hgl (by simp)
      · rename_i hne
        have := Option.some.inj (Except.ok.inj hgl)
        rw [Prod.mk.injEq] at this
        rw [← this.2]
        exact hne

theorem indexOf?_of_mem (l : List String) (a : String) (ha : a ∈ l) :
    l.indexOf? a = some (l.indexOf a) := by
  induction l with
  | nil => simp at ha
  | cons b t ih =>
    by_cases hba : b = a
    · subst hba
      simp [List.indexOf?_cons, List.indexOf_cons]
    · have hmem : a ∈ t := by
        rcases List.mem_cons.mp ha with h1 | h1
        · exact absurd h1.symm hba
        · exact h1
      have hbeq : (b == a) = false := by simpa using hba
      simp only [List.indexOf?_cons, List.indexOf_cons, hbeq, cond_false, if_neg,
        Bool.false_eq_true, not_false_iff]
      rw [ih hmem]
      rfl

theorem getLastDutyCycle_empty : getLastDutyCycle [] = .ok none := rfl

theorem getLastDutyCycle_max (h : History) (M v : String)
    (hmem : M ∈ h.map Prod.fst) (hmax : ∀ k ∈ h.map Prod.fst, k ≤ M)
    (hlook : h.lookup M = some v) (hv : v ≠ "") :
    getLastDutyCycle h = .ok (some (M, v)) := by
  simp only [getLastDutyCycle, insertionSort_getLast?_max _ M hmem hmax, hlook, if_neg hv]

theorem generateDutyCycleCore_mem (fs : Nat → Nat) (h : History) (roster : List String)
    (now : Nat) (s p : String) (ds : Nat)
    (hgl : getLastDutyCycle h = .ok (some (s, p)))
    (hparse : parseDate s = some ds)
    (hp : p ∈ roster) :
    generateDutyCycleCore fs h roster now =
      .ok ⟨printDate (ds + 7), roster[(roster.indexOf p + 1) % roster.length]?⟩ := by
  have hpne : p ≠ "" := getLastDutyCycle_ok_ne h s p hgl
  have hsne : s ≠ "" := by
    intro hcon
    rw [hcon, parseDate_empty] at hparse
    exact absurd hparse (by simp)
  simp only [generateDutyCycleCore, hgl]
  rw [if_neg (by rintro (hc | hc) <;> contradiction), indexOf?_of_mem roster p hp]
  simp only
  rw [hparse]
  simp only
  have hidx : ((roster.indexOf p : Int) + 1).toNat = roster.indexOf p + 1 := by omega
  rw [hidx]

theorem generateDutyCycleCore_notMem (fs : Nat → Nat) (h : History) (roster : List String)
    (now : Nat) (s p : String) (ds : Nat)
    (hgl : getLastDutyCycle h = .ok (some (s, p)))
    (hparse : parseDate s = some ds)
    (hp : p ∉ roster) :
    generateDutyCycleCore fs h roster now =
      .ok ⟨printDate (ds + 7), roster[0 % roster.length]?⟩ := by
  have hpne : p ≠ "" := getLastDutyCycle_ok_ne h s p hgl
  have hsne : s ≠ "" := by
    intro hcon
    rw [hcon, parseDate_empty] at hparse
    exact absurd hparse (by simp)
  simp only [generateDutyCycleCore, hgl]
  rw [if_neg (by rintro (hc | hc) <;> contradiction), indexOf?_eq_none_of_not_mem roster p hp]
  simp only
  rw [hparse]
  simp only
  have hidx : ((-1 : Int) + 1).toNat = 0 := by omega
  rw [hidx]

theorem generateDutyCycleCore_emptyHistory (fs : Nat → Nat) (roster : List String)
    (now : Nat) (ds : Nat)
    (hparse : parseDate (printDate (fs now)) = some ds) :
    generateDutyCycleCore fs [] roster now =
      .ok ⟨printDate (ds + 7), roster[0 % roster.length]?⟩ := by
  have hidx : ((-1 : Int) + 1).toNat = 0 := by omega
  simp only [generateDutyCycleCore, getLastDutyCycle_empty, hparse, hidx]

theorem getElem?_zero_mod (l : List String) : l[0 % l.length]? = l[0]? := by
  cases l with
  | nil => rfl
  | cons a t => simp

theorem firstIdx_lt (h : History) (roster : List String) (hne : roster ≠ []) :
    firstIdx h roster < roster.length := by
  have hpos : 0 < roster.length := List.length_pos.mpr hne
  unfold firstIdx
  split
  · split
    · exact hpos
    · split
      · exact Nat.mod_lt _ hpos
      · exact hpos
  · exact hpos

theorem yearOf_le_max (n : Nat) (hn : n ≤ maxCanonDay) : (civilFromDays n).1 ≤ 9999 := by
  have h1 := civil_year_mono n maxCanonDay hn
  have h2 : (civilFromDays maxCanonDay).1 = 9999 := by decide
  omega

theorem parseDate_printDate_le (n : Nat) (hn : n ≤ maxCanonDay) :
    parseDate (printDate n) = some n := by
  rcases hc : civilFromDays n with ⟨y, md⟩
  rcases md with ⟨m, d⟩
  refine parseDate_printDate n y m d hc ?_
  have := yearOf_le_max n hn
  rw [hc] at this
  exact this

theorem key_lt_print (s : String) (nk n2 : Nat) (hparse : parseDate s = some nk)
    (hlt : nk < n2) (hb : n2 ≤ maxCanonDay) : s < printDate n2 := by
  have h1 := parseDate_inv s nk hparse
  rw [← h1]
  exact printDate_lt nk n2 hlt (yearOf_le_max n2 hb)

theorem insertKV_fresh (h : History) (k v : String) (hfresh : k ∉ h.map Prod.fst) :
    insertKV h k v = h ++ [(k, v)] := by
  rw [insertKV, if_neg]
  intro hc
  exact hfresh (by simpa using hc)

theorem lookup_append_fresh (h : History) (k v : String) (hfresh : k ∉ h.map Prod.fst) :
    (h ++ [(k, v)]).lookup k = some v := by
  induction h with
  | nil => simp [List.lookup]
  | cons a t ih =>
    simp only [List.map_cons, List.mem_cons, not_or] at hfresh
    have hne : (k == a.1) = false := by simpa using hfresh.1
    rcases a with ⟨ak, av⟩
    simp only at hne
    simp only [List.cons_append, List.lookup, hne]
    exact ih hfresh.2

/-- The engine's behaviour on any history whose effective start day is known:
it never errors, advances the date by 7 days, and picks the `firstIdx` entry. -/
theorem generateDutyCycle_startDay (h : History) (roster : List String) (now d : Nat)
    (hst : startDay h now = some d) (hd : d ≤ maxCanonDay) :
    generateDutyCycle h roster now =
      .ok ⟨printDate (d + 7), roster[firstIdx h roster]?⟩ := by
  cases hgl : getLastDutyCycle h with
  | error e =>
    simp only [startDay, hgl] at hst
    exact absurd hst (by simp)
  | ok last =>
    cases last with
    | none =>
      simp only [startDay, hgl] at hst
      have hdd : getLastSunday now = d := Option.some.inj hst
      subst hdd
      have hparse : parseDate (printDate (getLastSunday now)) = some (getLastSunday now) :=
        parseDate_printDate_le _ hd
      have hidx : ((-1 : Int) + 1).toNat = 0 := by decide
      have hfi : firstIdx h roster = 0 := by simp only [firstIdx, hgl]
      rw [hfi, ← getElem?_zero_mod]
      simp only [generateDutyCycle, generateDutyCycleCore, hgl, hparse, hidx]
    | some sp =>
      rcases sp with ⟨s, p⟩
      have hpne : p ≠ "" := getLastDutyCycle_ok_ne h s p hgl
      by_cases hs : s = ""
      · subst hs
        simp only [startDay, hgl] at hst
        rw [if_pos trivial] at hst
        have hdd : getLastSunday now = d := Option.some.inj hst
        subst hdd
        have hparse : parseDate (printDate (getLastSunday now)) = some (getLastSunday now) :=
          parseDate_printDate_le _ hd
        have hidx : ((-1 : Int) + 1).toNat = 0 := by decide
        have hfi : firstIdx h roster = 0 := by
          simp only [firstIdx, hgl]
          rw [if_pos trivial]
        rw [hfi, ← getElem?_zero_mod]
        simp only [generateDutyCycle, generateDutyCycleCore, hgl]
        rw [if_pos (Or.inl trivial)]
        simp only [hparse, hidx]
      · simp only [startDay, hgl, if_neg hs] at hst
        by_cases hp : p ∈ roster
        · have hcore := generateDutyCycleCore_mem getLastSunday h roster now s p d hgl hst hp
          have hfi : firstIdx h roster = (roster.indexOf p + 1) % roster.length := by
            simp only [firstIdx, hgl, if_neg hs, indexOf?_of_mem roster p hp]
          rw [hfi]
          exact hcore
        · have hcore := generateDutyCycleCore_notMem getLastSunday h roster now s p d hgl hst hp
          have hfi : firstIdx h roster = 0 := by
            simp only [firstIdx, hgl, if_neg hs, indexOf?_eq_none_of_not_mem roster p hp]
          rw [hfi, ← getElem?_zero_mod]
          exact hcore

theorem firstIdx_append (h : History) (roster : List String) (k v : String)
    (hmax : getLastDutyCycle (h ++ [(k, v)]) = .ok (some (k, v)))
    (hk : k ≠ "") :
    firstIdx (h ++ [(k, v)]) roster =
      match roster.indexOf? v with
      | some i => (i + 1) % roster.length
      | none => 0 := by
  simp only [firstIdx, hmax]
  rw [if_neg hk]

/-- Invariant of the C1 iteration: after j steps the history is well-formed,
its start day has advanced by 7j, and the engine's next index has advanced by
j modulo the roster length. -/
theorem iter_invariant (roster : List String) (now : Nat) (h0 : History)
    (d0 J : Nat)
    (hrne : roster ≠ []) (hnd : roster.Nodup) (hnov : "" ∉ roster)
    (hkeys0 : ∀ kv ∈ h0, ∃ nk, parseDate kv.1 = some nk ∧ nk ≤ d0)
    (hknd0 : (h0.map Prod.fst).Nodup)
    (hstart0 : startDay h0 now = some d0)
    (hbound : d0 + 7 * (J + 1) ≤ maxCanonDay) :
    ∀ j, j ≤ J → ∃ hj, iterHist roster now h0 j = .ok hj ∧
      (∀ kv ∈ hj, ∃ nk, parseDate kv.1 = some nk ∧ nk ≤ d0 + 7 * j) ∧
      (hj.map Prod.fst).Nodup ∧
      startDay hj now = some (d0 + 7 * j) ∧
      firstIdx hj roster = (firstIdx h0 roster + j) % roster.length := by
  have hpos : 0 < roster.length := List.length_pos.mpr hrne
  intro j
  induction j with
  | zero =>
    intro _
    refine ⟨h0, rfl, ?_, hknd0, ?_, ?_⟩
    · simpa using hkeys0
    · simpa using hstart0
    · simp [Nat.mod_eq_of_lt (firstIdx_lt h0 roster hrne)]
  | succ j ih =>
    intro hjJ
    obtain ⟨hj, hiter, hkeys, hknd, hstart, hfirst⟩ := ih (Nat.le_of_succ_le hjJ)
    have hdb : d0 + 7 * (j + 1) ≤ maxCanonDay := by omega
    have hgen0 := generateDutyCycle_startDay hj roster now (d0 + 7 * j) hstart (by omega)
    have hdate : d0 + 7 * j + 7 = d0 + 7 * (j + 1) := by ring
    rw [hdate, hfirst] at hgen0
    have hidx : (firstIdx h0 roster + j) % roster.length < roster.length :=
      Nat.mod_lt _ hpos
    have helem : roster[(firstIdx h0 roster + j) % roster.length]? =
        some (roster[(firstIdx h0 roster + j) % roster.length]) :=
      List.getElem?_eq_getElem hidx
    have hfresh : printDate (d0 + 7 * (j + 1)) ∉ hj.map Prod.fst := by
      intro hmem
      obtain ⟨kv, hkv, hkeq⟩ := List.mem_map.mp hmem
      obtain ⟨nk, hpk, hle⟩ := hkeys kv hkv
      have hlt : kv.1 < printDate (d0 + 7 * (j + 1)) :=
        key_lt_print kv.1 nk _ hpk (by omega) hdb
      rw [hkeq] at hlt
      exact lt_irrefl _ hlt
    have hnmne : (roster[(firstIdx h0 roster + j) % roster.length]) ≠ "" := by
      intro hcon
      apply hnov
      rw [← hcon]
      exact List.getElem_mem hidx
    have hmax : getLastDutyCycle (hj ++ [(printDate (d0 + 7 * (j + 1)),
        roster[(firstIdx h0 roster + j) % roster.length])]) =
        .ok (some (printDate (d0 + 7 * (j + 1)),
          roster[(firstIdx h0 roster + j) % roster.length])) := by
      apply getLastDutyCycle_max
      · rw [List.map_append]
        simp
      · intro k hk
        rw [List.map_append] at hk
        rcases List.mem_append.mp hk with hold | hnew
        · obtain ⟨kv, hkv, hkeq⟩ := List.mem_map.mp hold
          obtain ⟨nk, hpk, hle⟩ := hkeys kv hkv
          have hlt := key_lt_print kv.1 nk _ hpk (by omega) hdb
          rw [hkeq] at hlt
          exact le_of_lt hlt
        · simp only [List.map_cons, List.map_nil, List.mem_singleton] at hnew
          rw [hnew]
      · exact lookup_append_fresh hj _ _ hfresh
      · exact hnmne
    refine ⟨hj ++ [(printDate (d0 + 7 * (j + 1)),
        roster[(firstIdx h0 roster + j) % roster.length])], ?_, ?_, ?_, ?_, ?_⟩
    · simp only [iterHist, hiter, stepUpdate, hgen0, helem]
      rw [insertKV_fresh _ _ _ hfresh]
    · intro kv hkv
      rcases List.mem_append.mp hkv with hold | hnew
      · obtain ⟨nk, hpk, hle⟩ := hkeys kv hold
        exact ⟨nk, hpk, by omega⟩
      · rw [List.mem_singleton] at hnew
        subst hnew
        exact ⟨d0 + 7 * (j + 1), parseDate_printDate_le _ hdb, le_refl _⟩
    · rw [List.map_append]
      refine List.Nodup.append hknd (List.nodup_singleton _) ?_
      intro x hx hx2
      simp only [List.map_cons, List.map_nil, List.mem_singleton] at hx2
      exact hfresh (hx2 ▸ hx)
    · simp only [startDay, hmax]
      rw [if_neg (printDate_ne_empty _)]
      exact parseDate_printDate_le _ hdb
    · rw [firstIdx_append _ _ _ _ hmax (printDate_ne_empty _),
        indexOf?_getElem roster hnd _ hidx]
      simp only
      rw [Nat.mod_add_mod]
      congr 1

theorem append_pull_two (p q t1 t2 : String) :
    ((p ++ q) ++ t1) ++ t2 = p ++ (q ++ (t1 ++ t2)) := by
  simp only [String.append_assoc]

theorem append_pull_five (p q t1 t2 t3 t4 t5 : String) :
    (((((p ++ q) ++ t1) ++ t2) ++ t3) ++ t4) ++ t5 =
      p ++ (q ++ ((((t1 ++ t2) ++ t3) ++ t4) ++ t5)) := by
  simp only [String.append_assoc]

/-- C1: amended. The original claim quantifies over every starting history and
an unbounded number of cycles; it fails once the printed dates leave the
fixed-width `YYYY-MM-DD` range (see the counterexample, where the engine gets
stuck on the year-10000 key and assigns the same person twice in a row).
For histories of canonical dated entries with distinct keys, and as long as
the generated dates stay at or below year 9999, iterating the engine visits
the roster entries in roster order, one step per cycle, wrapping modulo the
roster length: cycle j is assigned to `roster[(i0 + j) % N]` for a fixed
starting index `i0`, so each entry is visited exactly once per N consecutive
cycles. -/
theorem c1_rotation_order (roster : List String) (now : Nat) (h0 : History) (d0 J : Nat)
    (hrne : roster ≠ []) (hnd : roster.Nodup) (hnov : "" ∉ roster)
    (hkeys0 : ∀ kv ∈ h0, ∃ nk, parseDate kv.1 = some nk ∧ nk ≤ d0)
    (hknd0 : (h0.map Prod.fst).Nodup)
    (hstart0 : startDay h0 now = some d0)
    (hbound : d0 + 7 * (J + 1) ≤ maxCanonDay) :
    ∃ i0, i0 < roster.length ∧ ∀ j, j ≤ J →
      genAt roster now h0 j =
        .ok ⟨printDate (d0 + 7 * (j + 1)), roster[(i0 + j) % roster.length]?⟩ := by
  refine ⟨firstIdx h0 roster, firstIdx_lt h0 roster hrne, ?_⟩
  intro j hjJ
  obtain ⟨hj, hiter, hkeys, hknd, hstart, hfirst⟩ :=
    iter_invariant roster now h0 d0 J hrne hnd hnov hkeys0 hknd0 hstart0 hbound j hjJ
  have hgen := generateDutyCycle_startDay hj roster now (d0 + 7 * j) hstart (by omega)
  rw [hfirst] at hgen
  have hdate : d0 + 7 * j + 7 = d0 + 7 * (j + 1) := by ring
  rw [hdate] at hgen
  simp only [genAt, hiter]
  exact hgen

theorem c1_rotation_order_witness :
    ∃ i0, i0 < (["A", "B", "C"] : List String).length ∧ ∀ j, j ≤ 5 →
      genAt ["A", "B", "C"] 738161 [("2021-01-03", "A")] j =
        .ok ⟨printDate (738158 + 7 * (j + 1)),
          (["A", "B", "C"] : List String)[(i0 + j) % (["A", "B", "C"] : List String).length]?⟩ :=
  c1_rotation_order ["A", "B", "C"] 738161 [("2021-01-03", "A")] 738158 5
    (by decide) (by decide) (by decide)
    (by
      intro kv hkv
      rw [List.mem_singleton] at hkv
      subst hkv
      exact ⟨738158, by decide, le_refl _⟩)
    (by decide) (by decide) (by decide)

/-- C1 counterexample: roster `[A, B]` (N = 2), starting history
`{"9999-12-31": "A"}`. Cycle 0 and cycle 1 both assign `B`: the new key
`+010000-01-07` (JS expanded-year ISO format) sorts lexicographically before
`9999-12-31`, so the engine keeps reading `A` as the last assignee and never
advances — `A` is not visited once in the next 2 consecutive cycles. -/
theorem c1_rotation_order_counterexample :
    genAt ["A", "B"] 20 [("9999-12-31", "A")] 0 = .ok ⟨"+010000-01-07", some "B"⟩ ∧
    genAt ["A", "B"] 20 [("9999-12-31", "A")] 1 = .ok ⟨"+010000-01-07", some "B"⟩ ∧
    ("A" : String) ≠ "B" := by
  have hparse : parseDate "9999-12-31" = some maxCanonDay := by decide
  have hpd : printDate (maxCanonDay + 7) = "+010000-01-07" := by decide
  have hgl0 : getLastDutyCycle [("9999-12-31", "A")] = .ok (some ("9999-12-31", "A")) := by
    decide
  have hgen0 : generateDutyCycle [("9999-12-31", "A")] ["A", "B"] 20 =
      .ok ⟨"+010000-01-07", some "B"⟩ := by
    have h := generateDutyCycleCore_mem getLastSunday [("9999-12-31", "A")] ["A", "B"] 20
      "9999-12-31" "A" maxCanonDay hgl0 hparse (by decide)
    rw [hpd] at h
    exact h
  have hgl1 : getLastDutyCycle [("9999-12-31", "A"), ("+010000-01-07", "B")] =
      .ok (some ("9999-12-31", "A")) := by
    apply getLastDutyCycle_max
    · decide
    · intro k hk
      simp only [List.map_cons, List.map_nil, List.mem_cons, List.not_mem_nil, or_false] at hk
      rcases hk with rfl | rfl
      · exact le_refl _
      · exact String.le_iff_toList_le.mpr (by decide)
    · decide
    · decide
  have hgen1 : generateDutyCycle [("9999-12-31", "A"), ("+010000-01-07", "B")] ["A", "B"] 20 =
      .ok ⟨"+010000-01-07", some "B"⟩ := by
    have h := generateDutyCycleCore_mem getLastSunday
      [("9999-12-31", "A"), ("+010000-01-07", "B")] ["A", "B"] 20
      "9999-12-31" "A" maxCanonDay hgl1 hparse (by decide)
    rw [hpd] at h
    exact h
  have hiter1 : iterHist ["A", "B"] 20 [("9999-12-31", "A")] 1 =
      .ok [("9999-12-31", "A"), ("+010000-01-07", "B")] := by
    simp only [iterHist, stepUpdate, hgen0]
    rfl
  refine ⟨?_, ?_, by decide⟩
  · simp only [genAt, iterHist]
    exact hgen0
  · simp only [genAt, hiter1]
    exact hgen1

/-- C2: confirmed. For a history whose lexicographically last entry is
`(s, p)` with `s` parsing to day `ds` and `p` in the roster, the engine
returns the date exactly 7 days later and the roster entry after `p`,
wrapping modulo the roster length. -/
theorem c2_next_cycle (h : History) (roster : List String) (now : Nat) (s p : String)
    (ds : Nat)
    (hgl : getLastDutyCycle h = .ok (some (s, p)))
    (hparse : parseDate s = some ds)
    (hp : p ∈ roster) :
    generateDutyCycle h roster now =
      .ok ⟨printDate (ds + 7), roster[(roster.indexOf p + 1) % roster.length]?⟩ :=
  generateDutyCycleCore_mem getLastSunday h roster now s p ds hgl hparse hp

theorem c2_next_cycle_witness :
    generateDutyCycle [("2021-01-03", "B")] ["A", "B", "C"] 738161 =
      .ok ⟨printDate (738158 + 7),
        (["A", "B", "C"] : List String)[((["A", "B", "C"] : List String).indexOf "B" + 1) %
          (["A", "B", "C"] : List String).length]?⟩ :=
  c2_next_cycle [("2021-01-03", "B")] ["A", "B", "C"] 738161 "2021-01-03" "B" 738158
    (by decide) (by decide) (by decide)

/-- C3: amended. On an empty history the first generated date is NOT the most
recent configured weekday on/before now: it is 7 days later. In the a11y
variant the computed fallback is the Sunday strictly before now (a full week
back when now is a Sunday), and the engine then adds 7 days, yielding the
Sunday after `getLastSunday now`; similarly the Layout variant yields
`getLastMonday now + 7`. The assigned person is the first roster entry, and
the update run does persist a single-entry history. -/
theorem c3_first_cycle (config : List (String × String)) (now : Nat) (nm : String)
    (hnm : (config.map Prod.fst)[0]? = some nm)
    (hd : getLastSunday now ≤ maxCanonDay)
    (hdm : getLastMonday now ≤ maxCanonDay) :
    (∃ snap2, runUpdate config [] ⟨some [], some []⟩ now =
      .ok ([(printDate (getLastSunday now + 7), nm)], snap2,
        generateIcsFile [(printDate (getLastSunday now + 7), nm)])) ∧
    generateDutyCycleLayout [] (config.map Prod.fst) now =
      .ok ⟨printDate (getLastMonday now + 7), some nm⟩ := by
  have hroster0 : (config.map Prod.fst)[0 % (config.map Prod.fst).length]? = some nm := by
    rw [getElem?_zero_mod]
    exact hnm
  have hgen : generateDutyCycle [] (config.map Prod.fst) now =
      .ok ⟨printDate (getLastSunday now + 7), some nm⟩ := by
    have h := generateDutyCycleCore_emptyHistory getLastSunday (config.map Prod.fst) now
      (getLastSunday now) (parseDate_printDate_le _ hd)
    rw [hroster0] at h
    exact h
  constructor
  · refine ⟨⟨some [(nm, (config.lookup nm).getD "")],
      some [(printDate (getLastSunday now + 7), nm)]⟩, ?_⟩
    simp only [runUpdate, hgen]
    rfl
  · have h := generateDutyCycleCore_emptyHistory getLastMonday (config.map Prod.fst) now
      (getLastMonday now) (parseDate_printDate_le _ hdm)
    rw [hroster0] at h
    exact h

theorem c3_first_cycle_witness :
    (∃ snap2, runUpdate [("A", "ma"), ("B", "mb"), ("C", "mc")] [] ⟨some [], some []⟩ 738161 =
      .ok ([(printDate (getLastSunday 738161 + 7), "A")], snap2,
        generateIcsFile [(printDate (getLastSunday 738161 + 7), "A")])) ∧
    generateDutyCycleLayout [] ([("A", "ma"), ("B", "mb"), ("C", "mc")].map Prod.fst) 738161 =
      .ok ⟨printDate (getLastMonday 738161 + 7), some "A"⟩ :=
  c3_first_cycle [("A", "ma"), ("B", "mb"), ("C", "mc")] 738161 "A"
    (by decide) (by decide) (by decide)

/-- C3 counterexample: now = day 738161, a Wednesday (dayOfWeek 3). The most
recent Sunday on/before now prints as `2021-01-03`, but the first generated
cycle for an empty history is dated `2021-01-10` — one week later — so the
claimed first date is wrong (the person, `A`, is indeed the first entry). -/
theorem c3_first_cycle_counterexample :
    dayOfWeek 738161 = 3 ∧
    printDate (getLastSunday 738161) = "2021-01-03" ∧
    generateDutyCycle [] ["A", "B", "C"] 738161 = .ok ⟨"2021-01-10", some "A"⟩ ∧
    ("2021-01-10" : String) ≠ "2021-01-03" := ⟨rfl, by decide, rfl, by decide⟩

/-- C4: amended. The engine does NOT guard against an empty roster and does
not raise: `names[(idx+1) % 0]` is `names[NaN]`, i.e. `undefined`, so every
successful run with an empty roster returns a cycle whose person is the
JS value `undefined` (modelled as `none`); the counterexample shows a
concrete successful (non-error) run. -/
theorem c4_empty_roster (h : History) (now : Nat) (r : DutyCycle)
    (hok : generateDutyCycle h [] now = .ok r) : r.triagerName = none := by
  simp only [generateDutyCycle, generateDutyCycleCore] at hok
  split at hok
  · exact absurd hok (by simp)
  · split at hok
    · exact absurd hok (by simp)
    · have h2 := Except.ok.inj hok
      rw [← h2]
      simp

theorem c4_empty_roster_witness :
    (⟨"2021-01-10", none⟩ : DutyCycle).triagerName = none :=
  c4_empty_roster [("2021-01-03", "A")] 20 ⟨"2021-01-10", none⟩ rfl

/-- C4 counterexample: with the non-degenerate history `{"2021-01-03": "A"}`
and an empty roster the engine returns successfully (no error is raised);
the resulting cycle has an `undefined` person. -/
theorem c4_empty_roster_counterexample :
    generateDutyCycle [("2021-01-03", "A")] [] 20 = .ok ⟨"2021-01-10", none⟩ := rfl

/-- C5: confirmed. When the last assignee is absent from the (non-empty)
roster the engine does not error: `indexOf` yields -1, the next index is
`(-1+1) % N = 0`, so the first roster entry is assigned, with the date still
advanced by exactly 7 days. -/
theorem c5_missing_person (h : History) (roster : List String) (now : Nat) (s p : String)
    (ds : Nat)
    (hgl : getLastDutyCycle h = .ok (some (s, p)))
    (hparse : parseDate s = some ds)
    (hp : p ∉ roster) (hne : roster ≠ []) :
    generateDutyCycle h roster now = .ok ⟨printDate (ds + 7), some (roster.head hne)⟩ := by
  have hcore := generateDutyCycleCore_notMem getLastSunday h roster now s p ds hgl hparse hp
  rw [getElem?_zero_mod] at hcore
  have hh : roster[0]? = some (roster.head hne) := by
    cases roster with
    | nil => exact absurd rfl hne
    | cons a t => simp
  rw [hh] at hcore
  exact hcore

theorem c5_missing_person_witness :
    generateDutyCycle [("2021-01-03", "Z")] ["A", "B"] 20 =
      .ok ⟨printDate (738158 + 7), some "A"⟩ := by
  have h := c5_missing_person [("2021-01-03", "Z")] ["A", "B"] 20 "2021-01-03" "Z" 738158
    (by decide) (by decide) (by decide) (by decide)
  exact h

/-- C6: amended. An update run grows the history by exactly one entry and
leaves existing entries unchanged ONLY when the generated date is not already
a key (which holds for canonical histories within the year-9999 range, by
C1's invariant); the appended entry carries the generated date and person.
The counterexample shows an update run that does not grow the history. -/
theorem c6_update_appends (config : List (String × String)) (h : History)
    (tr dd : List (String × String)) (now : Nat) (dt nm : String)
    (hgen : generateDutyCycle h (config.map Prod.fst) now = .ok ⟨dt, some nm⟩)
    (hfresh : dt ∉ h.map Prod.fst) :
    ∃ snap2, runUpdate config h ⟨some tr, some dd⟩ now =
      .ok (h ++ [(dt, nm)], snap2, generateIcsFile (h ++ [(dt, nm)])) := by
  refine ⟨⟨some (match tr.lookup nm with
    | none => insertKV tr nm ((config.lookup nm).getD "")
    | some existing =>
      if existing = "" then insertKV tr nm ((config.lookup nm).getD "") else tr),
    some (insertKV dd dt nm)⟩, ?_⟩
  simp only [runUpdate, hgen]
  rw [insertKV_fresh h dt nm hfresh]
  simp only [appendDutyCycle] <;> rfl

theorem c6_update_appends_witness :
    ∃ snap2, runUpdate [("A", "ma"), ("B", "mb")] [("2021-01-03", "A")]
        ⟨some [], some []⟩ 20 =
      .ok ([("2021-01-03", "A")] ++ [("2021-01-10", "B")], snap2,
        generateIcsFile ([("2021-01-03", "A")] ++ [("2021-01-10", "B")])) := by
  have h := c6_update_appends [("A", "ma"), ("B", "mb")] [("2021-01-03", "A")] [] [] 20
    "2021-01-10" "B" (by decide) (by decide)
  exact h

/-- C6 counterexample: history `{"9999-12-31": "A", "+010000-01-07": "B"}`
with roster `[A, B]`: the update succeeds but regenerates the existing
`+010000-01-07` key, so the JS assignment overwrites in place and the
persisted history still has exactly the same 2 entries — it does not grow. -/
theorem c6_update_appends_counterexample :
    (runUpdate [("A", "ma"), ("B", "mb")] [("9999-12-31", "A"), ("+010000-01-07", "B")]
        ⟨some [], some []⟩ 20).toOption.map (fun t => t.1) =
      some [("9999-12-31", "A"), ("+010000-01-07", "B")] ∧
    ([("9999-12-31", "A"), ("+010000-01-07", "B")] : History).length = 2 := by
  have hparse : parseDate "9999-12-31" = some maxCanonDay := by decide
  have hpd : printDate (maxCanonDay + 7) = "+010000-01-07" := by decide
  have hgl1 : getLastDutyCycle [("9999-12-31", "A"), ("+010000-01-07", "B")] =
      .ok (some ("9999-12-31", "A")) := by
    apply getLastDutyCycle_max
    · decide
    · intro k hk
      simp only [List.map_cons, List.map_nil, List.mem_cons, List.not_mem_nil, or_false] at hk
      rcases hk with rfl | rfl
      · exact le_refl _
      · exact String.le_iff_toList_le.mpr (by decide)
    · decide
    · decide
  have hgenU : generateDutyCycle [("9999-12-31", "A"), ("+010000-01-07", "B")]
      (List.map Prod.fst [("A", "ma"), ("B", "mb")]) 20 =
      .ok ⟨"+010000-01-07", some "B"⟩ := by
    have h := generateDutyCycleCore_mem getLastSunday
      [("9999-12-31", "A"), ("+010000-01-07", "B")] ["A", "B"] 20
      "9999-12-31" "A" maxCanonDay hgl1 hparse (by decide)
    rw [hpd] at h
    exact h
  refine ⟨?_, rfl⟩
  simp only [runUpdate, hgenU]
  rfl

/-- C7: confirmed. Both variants build the calendar from the complete history:
one event per history entry, all-day, transparent, spanning exactly 7 days
(`end = start + 7`), with a fixed America/Los_Angeles timezone, a summary
naming the assigned person, and a description containing the triage-query
links (Bugzilla and Fenix queries in the a11y variant, the component-built
Bugzilla query in the Layout variant). -/
theorem c7_calendar (h : History) (components : List (String × String)) :
    (generateIcsFile h).timezone = "America/Los_Angeles" ∧
    (generateIcsFile h).tzid = "America/Los_Angeles" ∧
    (generateIcsFile h).events.length = h.length ∧
    (∀ e ∈ (generateIcsFile h).events, e.allDay = true ∧ e.transp = "TRANSPARENT" ∧
      e.stop = e.start.map (· + 7) ∧
      ∃ kv ∈ h, e.start = parseDate kv.1 ∧ e.summary = "Triage Duty: " ++ kv.2 ∧
        (∃ a b, e.description = a ++ (BZ_QUERY ++ b)) ∧
        (∃ a b, e.description = a ++ (getFenixQuery kv.1 ++ b))) ∧
    (generateIcsFileLayout h components).timezone = "America/Los_Angeles" ∧
    (generateIcsFileLayout h components).events.length = h.length ∧
    (∀ e ∈ (generateIcsFileLayout h components).events,
      e.allDay = true ∧ e.transp = "TRANSPARENT" ∧ e.stop = e.start.map (· + 7) ∧
      ∃ kv ∈ h, e.start = parseDate kv.1 ∧ e.summary = "Triage Duty: " ++ kv.2 ∧
        ∃ a b, e.description = a ++ (generateBugzillaUrl components ++ b)) := by
  refine ⟨rfl, rfl, by simp [generateIcsFile], ?_, rfl, by simp [generateIcsFileLayout], ?_⟩
  · intro e he
    simp only [generateIcsFile, List.mem_map] at he
    obtain ⟨kv, hkv, rfl⟩ := he
    refine ⟨rfl, rfl, rfl, kv, hkv, rfl, rfl, ?_, ?_⟩
    · exact ⟨"On duty this week: <strong>" ++ kv.2 ++ "</strong>" ++ "<ul>" ++ "<li><a href=\"",
        "\" title=\"Bugzilla query\">Untriaged Bugs in Bugzilla</a></li>" ++
          "<li><a href=\"" ++ getFenixQuery kv.1 ++
          "\" title=\"Fenix query\">Untriaged Fenix Bugs</a></li>" ++ "</ul>",
        append_pull_five _ _ _ _ _ _ _⟩
    · exact ⟨"On duty this week: <strong>" ++ kv.2 ++ "</strong>" ++ "<ul>" ++
        "<li><a href=\"" ++ BZ_QUERY ++
        "\" title=\"Bugzilla query\">Untriaged Bugs in Bugzilla</a></li>" ++ "<li><a href=\"",
        "\" title=\"Fenix query\">Untriaged Fenix Bugs</a></li>" ++ "</ul>",
        append_pull_two _ _ _ _⟩
  · intro e he
    simp only [generateIcsFileLayout, List.mem_map] at he
    obtain ⟨kv, hkv, rfl⟩ := he
    refine ⟨rfl, rfl, rfl, kv, hkv, rfl, rfl, ?_⟩
    exact ⟨"<strong>" ++ kv.2 ++ ":</strong> " ++ "<a href=\"",
      "\" title=\"Bugzilla Query\">Bugzilla Query</a>",
      String.append_assoc _ _ _⟩

theorem c7_calendar_witness :
    (generateIcsFile [("2021-01-03", "A")]).timezone = "America/Los_Angeles" ∧
    (generateIcsFile [("2021-01-03", "A")]).tzid = "America/Los_Angeles" ∧
    (generateIcsFile [("2021-01-03", "A")]).events.length =
      ([("2021-01-03", "A")] : History).length ∧
    (∀ e ∈ (generateIcsFile [("2021-01-03", "A")]).events,
      e.allDay = true ∧ e.transp = "TRANSPARENT" ∧
      e.stop = e.start.map (· + 7) ∧
      ∃ kv ∈ ([("2021-01-03", "A")] : History), e.start = parseDate kv.1 ∧
        e.summary = "Triage Duty: " ++ kv.2 ∧
        (∃ a b, e.description = a ++ (BZ_QUERY ++ b)) ∧
        (∃ a b, e.description = a ++ (getFenixQuery kv.1 ++ b))) ∧
    (generateIcsFileLayout [("2021-01-03", "A")] [("Core", "Layout")]).timezone =
      "America/Los_Angeles" ∧
    (generateIcsFileLayout [("2021-01-03", "A")] [("Core", "Layout")]).events.length =
      ([("2021-01-03", "A")] : History).length ∧
    (∀ e ∈ (generateIcsFileLayout [("2021-01-03", "A")] [("Core", "Layout")]).events,
      e.allDay = true ∧ e.transp = "TRANSPARENT" ∧ e.stop = e.start.map (· + 7) ∧
      ∃ kv ∈ ([("2021-01-03", "A")] : History), e.start = parseDate kv.1 ∧
        e.summary = "Triage Duty: " ++ kv.2 ∧
        ∃ a b, e.description = a ++ (generateBugzillaUrl [("Core", "Layout")] ++ b)) :=
  c7_calendar [("2021-01-03", "A")] [("Core", "Layout")]

/-- C8: confirmed. Regenerating the calendar is deterministic in the history
and idempotent: a second regeneration over the same history produces the
identical artifact, independent of whatever was previously on disk. -/
theorem c8_idempotent (h : History) (p1 p2 : Option IcsFile) :
    writeIcsFile h (writeIcsFile h p1) = writeIcsFile h p1 ∧
    writeIcsFile h p1 = writeIcsFile h p2 := ⟨rfl, rfl⟩

/-- C9: confirmed. `appendDutyCycle` errors exactly when the snapshot lacks
one of its two top-level mappings (in the error case no snapshot is produced,
so nothing is written), and `getLastDutyCycle` errors when the
lexicographically last history key maps to a falsy (empty) person. -/
theorem c9_fatal (snapshot : Snapshot) (date nm td : String) (h : History) (M : String)
    (hmem : M ∈ h.map Prod.fst) (hmax : ∀ k ∈ h.map Prod.fst, k ≤ M)
    (hlook : h.lookup M = some "") :
    ((∃ e, appendDutyCycle snapshot date nm td = .error e) ↔
      (snapshot.triagers = none ∨ snapshot.dutyStartDates = none)) ∧
    (∃ e, getLastDutyCycle h = .error e) := by
  constructor
  · constructor
    · rintro ⟨e, he⟩
      rcases snapshot with ⟨tr, dd⟩
      rcases tr with _ | tr
      · exact Or.inl rfl
      · rcases dd with _ | dd
        · exact Or.inr rfl
        · simp only [appendDutyCycle] at he
          exact absurd he (by simp)
    · intro hor
      rcases snapshot with ⟨tr, dd⟩
      rcases hor with h1 | h1
      · simp only at h1
        subst h1
        exact ⟨_, rfl⟩
      · simp only at h1
        subst h1
        rcases tr with _ | tr
        · exact ⟨_, rfl⟩
        · exact ⟨_, rfl⟩
  · have herr : getLastDutyCycle h = .error "FATAL ERROR: Invalid data in history file!" := by
      simp only [getLastDutyCycle, insertionSort_getLast?_max _ M hmem hmax, hlook]
      split
      · rfl
      · rename_i hcon
        simp at hcon
    exact ⟨_, herr⟩

theorem c9_fatal_witness :
    ((∃ e, appendDutyCycle ⟨none, some []⟩ "2021-01-10" "B" "mb" = .error e) ↔
      ((⟨none, some []⟩ : Snapshot).triagers = none ∨
        (⟨none, some []⟩ : Snapshot).dutyStartDates = none)) ∧
    (∃ e, getLastDutyCycle [("2021-01-03", "")] = .error e) :=
  c9_fatal ⟨none, some []⟩ "2021-01-10" "B" "mb" [("2021-01-03", "")] "2021-01-03"
    (by decide)
    (by
      intro k hk
      simp only [List.map_cons, List.map_nil, List.mem_cons, List.not_mem_nil, or_false] at hk
      rcases hk with rfl
      exact le_refl _)
    (by decide)

/-- C10: confirmed. `getLastDutyCycle` selects the entry whose key is maximal
in the lexicographic string order (the JS `sort()` order) and returns that
key with its person; on the empty history it returns the empty record
(no date, no person). For uniform fixed-width `YYYY-MM-DD` keys within year
9999 the lexicographic order coincides with chronological order, as the
strict monotonicity of `printDate` in the final conjunct shows. -/
theorem c10_last_duty (h : History) (M v : String)
    (hmem : M ∈ h.map Prod.fst) (hmax : ∀ k ∈ h.map Prod.fst, k ≤ M)
    (hlook : h.lookup M = some v) (hv : v ≠ "") :
    getLastDutyCycle h = .ok (some (M, v)) ∧
    getLastDutyCycle [] = .ok none ∧
    (∀ n n2, n < n2 → (civilFromDays n2).1 ≤ 9999 → printDate n < printDate n2) :=
  ⟨getLastDutyCycle_max h M v hmem hmax hlook hv, rfl,
    fun n n2 hlt hy => printDate_lt n n2 hlt hy⟩

theorem c10_last_duty_witness :
    getLastDutyCycle [("2021-01-03", "A"), ("2021-01-10", "B")] =
      .ok (some ("2021-01-10", "B")) ∧
    getLastDutyCycle [] = .ok none ∧
    (∀ n n2, n < n2 → (civilFromDays n2).1 ≤ 9999 → printDate n < printDate n2) :=
  c10_last_duty [("2021-01-03", "A"), ("2021-01-10", "B")] "2021-01-10" "B"
    (by decide)
    (by
      intro k hk
      simp only [List.map_cons, List.map_nil, List.mem_cons, List.not_mem_nil, or_false] at hk
      rcases hk with rfl | rfl
      · exact String.le_iff_toList_le.mpr (by decide)
      · exact le_refl _)
    (by decide) (by decide)
